import Mathlib

/-!
Verification development for the trivia-feed personalization and sync engine.

The definitions below are a shallow embedding of the repository's
TypeScript sources:
* `src/components/SimplifiedSyncManager.tsx` (initial load, write-only gating),
* `src/lib/openaiService.ts` (fingerprints, duplicate detection),
* the design-module and design-system-hook copies of `getTopicColor`,
* the code excerpts of `personalizationService.ts` and
  `simplifiedSyncService.ts` contained in
  `docs/system-architecture-and-data-flow.md` (weight updates, scoring,
  cold start, conflict-resolution merge).

JavaScript objects used as string-keyed maps are embedded as association
lists (`List (String × _)`), numbers as `ℚ`, and strings as `String`
(operating on their `List Char` data, with the ASCII semantics of the
string operations the sources use).
-/

/-! ## Association-list utilities (JS objects used as maps) -/

/-- First-occurrence lookup in an association list, the semantics of
reading `obj[key]` on a string-keyed JS object. -/
def alookup {α : Type} (k : String) : List (String × α) → Option α
  | [] => none
  | (k', v) :: t => if k' = k then some v else alookup k t

/-- Key-wise merge of two association lists: keys of `a` first (combined
with `f` when the key is also in `b`), then the keys only in `b`.
With `f := fun _ w => w` this is exactly the JS object spread
`\x7b...a, ...b\x7d`. -/
def amerge {α : Type} (f : α → α → α) (a b : List (String × α)) : List (String × α) :=
  a.map (fun p => (p.1, match alookup p.1 b with
    | some w => f p.2 w
    | none => p.2))
  ++ b.filter (fun p => (alookup p.1 a).isNone)

/-- Update the value at `k` in place if present, else append `(k, f dflt)`:
the embedding of `obj[k] = obj[k] || dflt` followed by a mutation `f`. -/
def upsertWith {α : Type} (k : String) (f : α → α) (dflt : α) :
    List (String × α) → List (String × α)
  | [] => [(k, f dflt)]
  | (k', v) :: t => if k' = k then (k', f v) :: t else (k', v) :: upsertWith k f dflt t

theorem alookup_mem {α : Type} {k : String} {v : α} :
    ∀ {l : List (String × α)}, alookup k l = some v → (k, v) ∈ l := by
  intro l
  induction l with
  | nil => intro h; simp [alookup] at h
  | cons p t ih =>
    obtain ⟨k', v'⟩ := p
    intro h
    rw [alookup] at h
    split at h
    · rename_i heq
      cases h
      subst heq
      exact List.mem_cons_self _ _
    · right
      exact ih h

theorem alookup_isSome_of_mem {α : Type} {k : String} {v : α} :
    ∀ {l : List (String × α)}, (k, v) ∈ l → (alookup k l).isSome = true := by
  intro l
  induction l with
  | nil => intro h; cases h
  | cons p t ih =>
    obtain ⟨k', v'⟩ := p
    intro h
    rw [alookup]
    split
    · rfl
    · rename_i hne
      cases h with
      | head => exact absurd rfl hne
      | tail _ h' => exact ih h'

theorem alookup_append {α : Type} (k : String) (x y : List (String × α)) :
    alookup k (x ++ y) =
      match alookup k x with
      | some v => some v
      | none => alookup k y := by
  induction x with
  | nil => simp [alookup]
  | cons p t ih =>
    obtain ⟨k', v'⟩ := p
    rw [List.cons_append, alookup, alookup]
    split
    · rfl
    · exact ih

theorem alookup_map_combine {α : Type} (g : String → α → α) (k : String) :
    ∀ a : List (String × α),
      alookup k (a.map (fun p => (p.1, g p.1 p.2))) = (alookup k a).map (g k) := by
  intro a
  induction a with
  | nil => simp [alookup]
  | cons p t ih =>
    obtain ⟨k', v'⟩ := p
    rw [List.map_cons, alookup, alookup]
    by_cases hk : k' = k
    · subst hk
      simp
    · rw [if_neg hk, if_neg hk, ih]

theorem alookup_filter_key {α : Type} (q : String → Bool) (k : String) :
    ∀ b : List (String × α),
      alookup k (b.filter (fun p => q p.1)) =
        if q k then alookup k b else none := by
  intro b
  induction b with
  | nil => simp [alookup]
  | cons p t ih =>
    obtain ⟨k', v'⟩ := p
    rw [List.filter]
    by_cases hk : k' = k
    · subst hk
      cases hq : q k' with
      | true => simp only [hq, if_true]; rw [alookup, if_pos rfl, alookup, if_pos rfl]
      | false =>
        simp only [hq, Bool.false_eq_true, if_false]
        rw [ih, hq]
        simp
    · cases hq : q k' with
      | true => simp only [hq, if_true]; rw [alookup, if_neg hk, ih, alookup, if_neg hk]
      | false => simp only [hq, Bool.false_eq_true, if_false]; rw [ih, alookup, if_neg hk]

/-- Characterization of `alookup` over `amerge`: the merged list looks up
to the key-wise combination of the two lookups. -/
theorem alookup_amerge_eq {α : Type} (f : α → α → α) (k : String)
    (a b : List (String × α)) :
    alookup k (amerge f a b) =
      match alookup k a, alookup k b with
      | some x, some y => some (f x y)
      | some x, none => some x
      | none, o => o := by
  rw [amerge, alookup_append]
  rw [alookup_map_combine (fun k0 v0 => match alookup k0 b with
    | some w => f v0 w
    | none => v0) k a]
  rw [alookup_filter_key (fun k0 => (alookup k0 a).isNone) k b]
  cases ha : alookup k a <;> cases hb : alookup k b <;>
    simp only [ha, hb, Option.map_some', Option.map_none', Option.isNone_none,
      Option.isNone_some, if_true, Bool.false_eq_true, if_false]

theorem alookup_self_of_nodup {α : Type} :
    ∀ (a : List (String × α)), (a.map Prod.fst).Nodup →
      ∀ p ∈ a, alookup p.1 a = some p.2 := by
  intro a
  induction a with
  | nil => intro _ p hp; cases hp
  | cons q t ih =>
    obtain ⟨kq, vq⟩ := q
    intro hnd p hp
    rw [List.map_cons, List.nodup_cons] at hnd
    rw [List.mem_cons] at hp
    rcases hp with hp | hp
    · subst hp
      rw [alookup, if_pos rfl]
    · rw [alookup]
      have hne : ¬ kq = p.1 := by
        intro hEq
        exact hnd.1 (hEq ▸ (List.mem_map.mpr ⟨p, hp, rfl⟩))
      rw [if_neg hne]
      exact ih hnd.2 p hp

/-- `amerge f a a = a` when the keys of `a` are duplicate-free and `f` is
idempotent on the entries of `a`. -/
theorem amerge_self {α : Type} (f : α → α → α) (a : List (String × α))
    (hnd : (a.map Prod.fst).Nodup) (hf : ∀ p ∈ a, f p.2 p.2 = p.2) :
    amerge f a a = a := by
  rw [amerge]
  have h1 : a.map (fun p => (p.1, match alookup p.1 a with
      | some w => f p.2 w
      | none => p.2)) = a := by
    calc a.map (fun p => (p.1, match alookup p.1 a with
          | some w => f p.2 w
          | none => p.2))
        = a.map id := by
          apply List.map_congr_left
          intro p hp
          rw [alookup_self_of_nodup a hnd p hp]
          simp only [hf p hp, id_eq]
      _ = a := List.map_id a
  have h2 : a.filter (fun p => (alookup p.1 a).isNone) = [] := by
    apply List.filter_eq_nil_iff.mpr
    intro p hp
    rw [alookup_self_of_nodup a hnd p hp]
    simp
  rw [h1, h2, List.append_nil]

/-! ## Character and string utilities (ASCII semantics of the JS string
operations used by `openaiService.ts` and the color helpers) -/

/-- The whitespace class `\s` (ASCII part): space, tab, newline, vertical
tab, form feed, carriage return. -/
def isWsChar (c : Char) : Bool :=
  c.toNat = 32 || c.toNat = 9 || c.toNat = 10 || c.toNat = 13 || c.toNat = 11 || c.toNat = 12

/-- The word-character class `\w`: letters, digits and underscore. -/
def isWordChar (c : Char) : Bool :=
  (97 ≤ c.toNat && c.toNat ≤ 122) || (65 ≤ c.toNat && c.toNat ≤ 90) ||
    (48 ≤ c.toNat && c.toNat ≤ 57) || c.toNat = 95

/-- A character survives `replace(/[^\w\s]/g, "")` iff it is a word or
whitespace character. -/
def keepChar (c : Char) : Bool := isWordChar c || isWsChar c

/-- `String.prototype.toLowerCase` on one character (ASCII range). -/
def jsLowerChar (c : Char) : Char :=
  if 65 ≤ c.toNat ∧ c.toNat ≤ 90 then Char.ofNat (c.toNat + 32) else c

/-- `String.prototype.toLowerCase` (ASCII range). -/
def jsToLower (s : String) : String := ⟨s.data.map jsLowerChar⟩

theorem toNat_jsLowerChar (c : Char) :
    (jsLowerChar c).toNat = if 65 ≤ c.toNat ∧ c.toNat ≤ 90 then c.toNat + 32 else c.toNat := by
  unfold jsLowerChar
  split
  · rename_i h
    have hv : (c.toNat + 32).isValidChar := Or.inl (by omega)
    rw [Char.ofNat, dif_pos hv]
    simp [Char.ofNatAux, Char.toNat, UInt32.toNat]
  · rfl

theorem isWsChar_jsLowerChar (c : Char) : isWsChar (jsLowerChar c) = isWsChar c := by
  have h := toNat_jsLowerChar c
  unfold isWsChar
  rw [h]
  split
  · rename_i hr
    rw [Bool.eq_iff_iff]
    simp only [Bool.or_eq_true, decide_eq_true_eq]
    omega
  · rfl

theorem isWordChar_jsLowerChar (c : Char) : isWordChar (jsLowerChar c) = isWordChar c := by
  have h := toNat_jsLowerChar c
  unfold isWordChar
  rw [h]
  split
  · rename_i hr
    rw [Bool.eq_iff_iff]
    simp only [Bool.or_eq_true, Bool.and_eq_true, decide_eq_true_eq]
    omega
  · rfl

theorem keepChar_jsLowerChar (c : Char) : keepChar (jsLowerChar c) = keepChar c := by
  rw [keepChar, keepChar, isWsChar_jsLowerChar, isWordChar_jsLowerChar]

theorem isWs_of_not_keep {c : Char} (h : keepChar c = false) : isWsChar c = false := by
  rw [keepChar, Bool.or_eq_false_iff] at h
  exact h.2

/-- Whitespace characters are unchanged by lowercasing. -/
theorem jsLowerChar_of_isWs {c : Char} (h : isWsChar c = true) : jsLowerChar c = c := by
  rw [jsLowerChar, if_neg]
  rw [isWsChar] at h
  simp only [Bool.or_eq_true, decide_eq_true_eq] at h
  omega

/-- One pass of `replace(/\s+/g, " ")`: every maximal whitespace run is
replaced by a single space.  The boolean says whether we are inside a run
whose space has already been emitted. -/
def collapseWsAux : Bool → List Char → List Char
  | _, [] => []
  | inRun, c :: t =>
    if isWsChar c then
      if inRun then collapseWsAux true t else ' ' :: collapseWsAux true t
    else
      c :: collapseWsAux false t

/-- `replace(/\s+/g, " ")`. -/
def collapseWs (l : List Char) : List Char := collapseWsAux false l

/-- `String.prototype.trim`: drop whitespace from both ends. -/
def trimWs (l : List Char) : List Char :=
  ((l.dropWhile isWsChar).reverse.dropWhile isWsChar).reverse

/-- Lowercase, strip punctuation (`[^\w\s]`): the first two stages of the
question-text normalization. -/
def stripLower (l : List Char) : List Char := (l.map jsLowerChar).filter keepChar

/-- The full normalization pipeline of `generateQuestionFingerprint`:
`question.toLowerCase().replace(/[^\w\s]/g, "").replace(/\s+/g, " ").trim()`. -/
def normalizeQuestionData (l : List Char) : List Char := trimWs (collapseWs (stripLower l))

theorem stripLower_cons (c : Char) (t : List Char) :
    stripLower (c :: t) =
      if keepChar (jsLowerChar c) then jsLowerChar c :: stripLower t else stripLower t := by
  rw [stripLower, List.map_cons, List.filter]
  split <;> rename_i h
  · rw [if_pos h]; rfl
  · rw [if_neg (by simp [Bool.not_eq_true] at h ⊢; exact h)]; rfl

theorem collapseWsAux_cons_ws_true {c : Char} (t : List Char) (h : isWsChar c = true) :
    collapseWsAux true (c :: t) = collapseWsAux true t := by
  rw [collapseWsAux, if_pos h, if_pos rfl]

theorem collapseWsAux_cons_ws_false {c : Char} (t : List Char) (h : isWsChar c = true) :
    collapseWsAux false (c :: t) = ' ' :: collapseWsAux true t := by
  rw [collapseWsAux, if_pos h]
  simp

theorem collapseWsAux_cons_not_ws {c : Char} (b : Bool) (t : List Char)
    (h : isWsChar c = false) :
    collapseWsAux b (c :: t) = c :: collapseWsAux false t := by
  rw [collapseWsAux, if_neg (by simp [h])]

/-- Collapsing whitespace, then lowercasing/stripping, then collapsing
again gives the same result as lowercasing/stripping and collapsing once:
the computational heart of whitespace-insensitivity of the fingerprint. -/
theorem collapse_stripLower_collapse : ∀ l : List Char,
    collapseWsAux false (stripLower (collapseWsAux false l))
        = collapseWsAux false (stripLower l) ∧
      collapseWsAux true (stripLower (collapseWsAux true l))
        = collapseWsAux true (stripLower l) ∧
      collapseWsAux true (stripLower (collapseWsAux false l))
        = collapseWsAux true (stripLower l) := by
  intro l
  induction l with
  | nil => exact ⟨rfl, rfl, rfl⟩
  | cons c t ih =>
    obtain ⟨ihA, ihB, ihD⟩ := ih
    have hsp1 : isWsChar ' ' = true := by decide
    have hsp2 : jsLowerChar ' ' = ' ' := by decide
    have hsp3 : keepChar ' ' = true := by decide
    cases hw : isWsChar c with
    | true =>
      have hlc : jsLowerChar c = c := jsLowerChar_of_isWs hw
      have hkc : keepChar c = true := by rw [keepChar, hw, Bool.or_true]
      have hstrip : stripLower (c :: t) = c :: stripLower t := by
        rw [stripLower_cons, hlc, if_pos hkc]
      refine ⟨?_, ?_, ?_⟩
      · rw [collapseWsAux_cons_ws_false t hw, stripLower_cons, hsp2, if_pos hsp3,
          collapseWsAux_cons_ws_false _ hsp1, ihB, hstrip,
          collapseWsAux_cons_ws_false _ hw]
      · rw [collapseWsAux_cons_ws_true t hw, ihB, hstrip,
          collapseWsAux_cons_ws_true _ hw]
      · rw [collapseWsAux_cons_ws_false t hw, stripLower_cons, hsp2, if_pos hsp3,
          collapseWsAux_cons_ws_true _ hsp1, ihB, hstrip,
          collapseWsAux_cons_ws_true _ hw]
    | false =>
      cases hk : keepChar (jsLowerChar c) with
      | true =>
        have hlw : isWsChar (jsLowerChar c) = false := by rw [isWsChar_jsLowerChar, hw]
        have hstrip : ∀ x, stripLower (c :: x) = jsLowerChar c :: stripLower x := by
          intro x
          rw [stripLower_cons, if_pos hk]
        refine ⟨?_, ?_, ?_⟩
        · rw [collapseWsAux_cons_not_ws false t hw, hstrip, hstrip,
            collapseWsAux_cons_not_ws false _ hlw, collapseWsAux_cons_not_ws false _ hlw, ihA]
        · rw [collapseWsAux_cons_not_ws true t hw, hstrip, hstrip,
            collapseWsAux_cons_not_ws true _ hlw, collapseWsAux_cons_not_ws true _ hlw, ihA]
        · rw [collapseWsAux_cons_not_ws false t hw, hstrip, hstrip,
            collapseWsAux_cons_not_ws true _ hlw, collapseWsAux_cons_not_ws true _ hlw, ihA]
      | false =>
        have hstrip : ∀ x, stripLower (c :: x) = stripLower x := by
          intro x
          rw [stripLower_cons, if_neg (by simp [hk])]
        refine ⟨?_, ?_, ?_⟩
        · rw [collapseWsAux_cons_not_ws false t hw, hstrip, hstrip, ihA]
        · rw [collapseWsAux_cons_not_ws true t hw, hstrip, hstrip, ihD]
        · rw [collapseWsAux_cons_not_ws false t hw, hstrip, hstrip, ihD]

theorem stringExt {a b : String} (h : a.data = b.data) : a = b := by
  cases a
  cases b
  exact congrArg String.mk (by simpa using h)

/-- Lowercase-equal texts normalize equally. -/
theorem normalize_eq_of_lower_eq {a b : List Char}
    (h : a.map jsLowerChar = b.map jsLowerChar) :
    normalizeQuestionData a = normalizeQuestionData b := by
  rw [normalizeQuestionData, normalizeQuestionData, stripLower, stripLower, h]

/-- Texts equal after deleting the punctuation class normalize equally. -/
theorem normalize_eq_of_filter_eq {a b : List Char}
    (h : a.filter keepChar = b.filter keepChar) :
    normalizeQuestionData a = normalizeQuestionData b := by
  have hcomm : ∀ l : List Char,
      stripLower l = (l.filter keepChar).map jsLowerChar := by
    intro l
    rw [stripLower, List.filter_map]
    congr 1
    apply List.filter_congr
    intro c _
    rw [Function.comp_apply, keepChar_jsLowerChar]
  rw [normalizeQuestionData, normalizeQuestionData, hcomm, hcomm, h]

/-- Texts with equal whitespace-collapse normalize equally. -/
theorem normalize_eq_of_collapse_eq {a b : List Char}
    (h : collapseWs a = collapseWs b) :
    normalizeQuestionData a = normalizeQuestionData b := by
  have ha := (collapse_stripLower_collapse a).1
  have hb := (collapse_stripLower_collapse b).1
  simp only [collapseWs] at h
  rw [normalizeQuestionData, normalizeQuestionData, collapseWs, collapseWs, ← ha, ← hb, h]

/-! ## The string order used by `Array.prototype.sort()` (code-point
lexicographic comparison) -/

def lexLeB : List Char → List Char → Bool
  | [], _ => true
  | _ :: _, [] => false
  | x :: xs, y :: ys =>
    if x.toNat < y.toNat then true
    else if y.toNat < x.toNat then false
    else lexLeB xs ys

def strLeB (a b : String) : Bool := lexLeB a.data b.data

/-- The default JS sort order on strings, as a binary relation. -/
def strLeR : String → String → Prop := fun a b => strLeB a b = true

instance : DecidableRel strLeR := fun a b =>
  inferInstanceAs (Decidable (strLeB a b = true))

theorem lexLeB_total : ∀ a b : List Char, lexLeB a b = true ∨ lexLeB b a = true := by
  intro a
  induction a with
  | nil => intro b; left; rfl
  | cons x xs ih =>
    intro b
    cases b with
    | nil => right; rfl
    | cons y ys =>
      by_cases h1 : x.toNat < y.toNat
      · left; simp [lexLeB, h1]
      · by_cases h2 : y.toNat < x.toNat
        · right; simp [lexLeB, h2]
        · have := ih ys
          simp [lexLeB, h1, h2]
          exact this

theorem lexLeB_trans : ∀ a b c : List Char,
    lexLeB a b = true → lexLeB b c = true → lexLeB a c = true := by
  intro a
  induction a with
  | nil => intro b c _ _; rfl
  | cons x xs ih =>
    intro b c hab hbc
    cases b with
    | nil => simp [lexLeB] at hab
    | cons y ys =>
      cases c with
      | nil => simp [lexLeB] at hbc
      | cons z zs =>
        rw [lexLeB] at hab hbc ⊢
        by_cases hxy : x.toNat < y.toNat
        · by_cases hyz : y.toNat < z.toNat
          · rw [if_pos (by omega)]
          · rw [if_neg hyz] at hbc
            by_cases hzy : z.toNat < y.toNat
            · rw [if_pos hzy] at hbc
              exact absurd hbc (by simp)
            · rw [if_pos (by omega)]
        · rw [if_neg hxy] at hab
          by_cases hyx : y.toNat < x.toNat
          · rw [if_pos hyx] at hab
            exact absurd hab (by simp)
          · rw [if_neg hyx] at hab
            by_cases hyz : y.toNat < z.toNat
            · rw [if_pos (by omega)]
            · rw [if_neg hyz] at hbc
              by_cases hzy : z.toNat < y.toNat
              · rw [if_pos hzy] at hbc
                exact absurd hbc (by simp)
              · rw [if_neg hzy] at hbc
                rw [if_neg (by omega), if_neg (by omega)]
                exact ih ys zs hab hbc

theorem lexLeB_antisymm : ∀ a b : List Char,
    lexLeB a b = true → lexLeB b a = true → a = b := by
  intro a
  induction a with
  | nil =>
    intro b _ hba
    cases b with
    | nil => rfl
    | cons y ys => simp [lexLeB] at hba
  | cons x xs ih =>
    intro b hab hba
    cases b with
    | nil => simp [lexLeB] at hab
    | cons y ys =>
      rw [lexLeB] at hab hba
      by_cases h1 : x.toNat < y.toNat
      · rw [if_pos h1] at hab
        rw [if_neg (by omega), if_pos h1] at hba
        exact absurd hba (by simp)
      · by_cases h2 : y.toNat < x.toNat
        · rw [if_neg h1, if_pos h2] at hab
          exact absurd hab (by simp)
        · rw [if_neg h1, if_neg h2] at hab
          rw [if_neg h2, if_neg h1] at hba
          have hxy : x.toNat = y.toNat := by omega
          have hval : x.val = y.val := UInt32.toNat.inj hxy
          rw [Char.ext hval, ih ys hab hba]

instance : IsTotal String strLeR :=
  ⟨fun a b => lexLeB_total a.data b.data⟩

instance : IsTrans String strLeR :=
  ⟨fun a b c hab hbc => lexLeB_trans a.data b.data c.data hab hbc⟩

instance : IsAntisymm String strLeR :=
  ⟨fun a b hab hba => stringExt (lexLeB_antisymm a.data b.data hab hba)⟩

/-- `Array.prototype.sort()` on an array of strings: the result is the
input sorted by the default (code-point lexicographic) comparison. -/
def sortStringsJs (l : List String) : List String := List.insertionSort strLeR l

/-- Sorting is invariant under permutation of the input. -/
theorem sortStringsJs_perm {l₁ l₂ : List String} (h : l₁.Perm l₂) :
    sortStringsJs l₁ = sortStringsJs l₂ := by
  apply List.eq_of_perm_of_sorted (r := strLeR)
  · exact ((List.perm_insertionSort strLeR l₁).trans h).trans
      (List.perm_insertionSort strLeR l₂).symm
  · exact List.sorted_insertionSort strLeR l₁
  · exact List.sorted_insertionSort strLeR l₂

/-! ## `generateQuestionFingerprint` (openaiService.ts) -/

/-- The normalization applied to question text by
`generateQuestionFingerprint`: lowercase, remove `[^\w\s]`, collapse
whitespace runs to single spaces, trim. -/
def normalizeQuestionText (q : String) : String := ⟨normalizeQuestionData q.data⟩

/-- `generateQuestionFingerprint(question, tags)`: normalized question
text, a `|` separator, and the sorted tags joined with `|` and
lowercased. -/
def generateQuestionFingerprint (question : String) (tags : List String) : String :=
  normalizeQuestionText question ++ "|" ++
    jsToLower (String.intercalate "|" (sortStringsJs tags))

/-! ## Data model (`UserProfile` in personalizationService.ts /
docs/system-architecture-and-data-flow.md) -/

/-- The three JS values an interaction's `wasCorrect` field can hold:
absent (`undefined`), `null` (viewed but unanswered), or a boolean. -/
inductive JsTri where
  | undef : JsTri
  | nullv : JsTri
  | val : Bool → JsTri
deriving DecidableEq

/-- JS truthiness of a `JsTri` value. -/
def JsTri.truthy : JsTri → Bool
  | .val true => true
  | _ => false

/-- The JS test `x !== undefined`. -/
def JsTri.isDefined : JsTri → Bool
  | .undef => false
  | _ => true

/-- `QuestionInteraction`: one record per question id. -/
structure QuestionInteraction where
  wasCorrect : JsTri
  wasSkipped : Bool
  timeSpent : ℚ
  viewedAt : ℚ
deriving DecidableEq

/-- `TopicBranch`: leaf of the weight tree. -/
structure TopicBranch where
  weight : ℚ
  lastViewed : Option ℚ := none
deriving DecidableEq

/-- `SubTopic`: middle level of the weight tree. -/
structure SubTopic where
  weight : ℚ
  branches : List (String × TopicBranch)
  lastViewed : Option ℚ := none
deriving DecidableEq

/-- `RootTopic`: top level of the weight tree. -/
structure RootTopic where
  weight : ℚ
  subtopics : List (String × SubTopic)
  lastViewed : Option ℚ := none
deriving DecidableEq

/-- `UserProfile`. -/
structure UserProfile where
  topics : List (String × RootTopic)
  interactions : List (String × QuestionInteraction)
  lastRefreshed : ℚ
  totalQuestionsAnswered : ℕ
  coldStartComplete : Bool
  version : ℕ
deriving DecidableEq

/-- A candidate feed item, carrying the labels the scoring and filter
code reads. -/
structure TriviaItem where
  id : String
  topic : String
  subtopic : String
  branch : String
  difficultyOk : Bool
deriving DecidableEq

/-- The default sentinel weight a fresh profile starts with (0.5,
written as an explicit rational so that it evaluates structurally). -/
def defaultWeight : ℚ := ⟨1, 2, by decide, by decide⟩

theorem defaultWeight_eq : defaultWeight = 0.5 := by
  rw [defaultWeight]
  norm_num [Rat.mk'_eq_divInt, Rat.divInt_eq_div]

/-! ## Sync coordinator: initial load and write-only gating
(`SimplifiedSyncManager.tsx`) -/

/-- Modelled from the spec: `hasAllDefaultWeights` lives in
`simplifiedSyncService.ts`, which is not part of the snapshot; per the
spec's sentinel language, a profile "has all-default weights" when every
topic weight equals the default sentinel `0.5`. -/
def hasAllDefaultWeights (p : UserProfile) : Bool :=
  p.topics.all (fun t => t.2.weight = defaultWeight)

/-- The three-way decision of `loadInitialData`
(`SimplifiedSyncManager.tsx`, lines 169–212): given the local profile and
the fetched remote profile (if any), returns the profile adopted into the
store and whether the local profile was pushed remotely. -/
def initialLoadResolve (localProfile : UserProfile) (remote : Option UserProfile) :
    UserProfile × Bool :=
  match remote with
  | some r =>
    if r.lastRefreshed > localProfile.lastRefreshed then (r, false)
    else if hasAllDefaultWeights localProfile && !hasAllDefaultWeights r then (r, false)
    else (localProfile, true)
  | none => (localProfile, true)

/-- The coordinator's per-session state after the initial load. -/
structure SyncState where
  profile : UserProfile
  writeOnly : Bool
deriving DecidableEq

/-- `loadInitialData` including the write-only gating at its end
(lines 216–227): the write-only flag is set from
`remoteProfile || userProfile`, not from the adopted profile. -/
def loadInitialDataState (localProfile : UserProfile) (remote : Option UserProfile) :
    SyncState :=
  let adopted := (initialLoadResolve localProfile remote).1
  let profileToCheck := remote.getD localProfile
  { profile := adopted, writeOnly := !hasAllDefaultWeights profileToCheck }

/-- The `checkDefaultWeights` effect (`SimplifiedSyncManager.tsx`,
lines 63–99), which runs once `initialDataLoaded` is set: with all-default
weights in memory it re-fetches the remote profile
(`fetchProfileWithDefaultCheck`, modelled from the spec as returning the
remote store's profile) and adopts it when it has non-default weights;
otherwise it ensures write-only mode. -/
def checkDefaultWeightsStep (s : SyncState) (fetched : Option UserProfile) : SyncState :=
  if hasAllDefaultWeights s.profile then
    match fetched with
    | some r =>
      if !hasAllDefaultWeights r then { profile := r, writeOnly := true }
      else s
    | none => s
  else
    { s with writeOnly := true }

/-- A full session start against a fixed remote store value: the one-time
`loadInitialData`, then the `checkDefaultWeights` effect triggered by
`initialDataLoaded` becoming true. -/
def sessionStart (localProfile : UserProfile) (remote : Option UserProfile) : SyncState :=
  checkDefaultWeightsStep (loadInitialDataState localProfile remote) remote

/-! ## Conflict-resolver merge (simplifiedSyncService.ts, excerpted in
docs/system-architecture-and-data-flow.md lines 936–963) -/

/-- Modelled from the spec: the body of `mergeTopics` is not in the
snapshot (only its call site is); per the spec and the doc ("for topic
weights, it takes the higher value", "merge weights leaf-by-leaf:
mergedWeight = max(localWeight, remoteWeight)"), nodes present on both
sides take the leaf-wise maximum weight (the spec fixes only weights;
`lastViewed` is taken from the local side) and nodes present on one side
are kept. Branch level. -/
def mergeBranch (a b : TopicBranch) : TopicBranch :=
  { weight := max a.weight b.weight, lastViewed := a.lastViewed }

/-- Modelled from the spec: subtopic level of `mergeTopics` (see
`mergeBranch`). -/
def mergeSub (a b : SubTopic) : SubTopic :=
  { weight := max a.weight b.weight,
    branches := amerge mergeBranch a.branches b.branches,
    lastViewed := a.lastViewed }

/-- Modelled from the spec: root level of `mergeTopics` (see
`mergeBranch`). -/
def mergeRoot (a b : RootTopic) : RootTopic :=
  { weight := max a.weight b.weight,
    subtopics := amerge mergeSub a.subtopics b.subtopics,
    lastViewed := a.lastViewed }

/-- `mergeTopics(userProfile.topics, latestData.topics)`. -/
def mergeTopics (a b : List (String × RootTopic)) : List (String × RootTopic) :=
  amerge mergeRoot a b

/-- The conflict-resolution retry payload built in
`simplifiedSyncService.ts` after a version conflict:
`mergeTopics(userProfile.topics, latestData.topics)`, the interaction
spread `\x7b...latestData.interactions, ...userProfile.interactions\x7d`
(the local entry wins on a key collision), the max of the two answer
counts, `last_refreshed: Date.now()` and `version: latestData.version + 1`. -/
def mergeProfiles (localProfile latest : UserProfile) (now : ℚ) : UserProfile :=
  { topics := mergeTopics localProfile.topics latest.topics,
    interactions := amerge (fun _ w => w) latest.interactions localProfile.interactions,
    lastRefreshed := now,
    totalQuestionsAnswered :=
      max localProfile.totalQuestionsAnswered latest.totalQuestionsAnswered,
    coldStartComplete := localProfile.coldStartComplete,
    version := latest.version + 1 }

/-- Key sets are duplicate-free throughout a profile's weight tree and
interaction map (the data model's "unique keys"). -/
def WFSub (s : SubTopic) : Prop := (s.branches.map Prod.fst).Nodup

def WFRoot (r : RootTopic) : Prop :=
  (r.subtopics.map Prod.fst).Nodup ∧ ∀ p ∈ r.subtopics, WFSub p.2

def WFProfile (p : UserProfile) : Prop :=
  (p.topics.map Prod.fst).Nodup ∧ (∀ q ∈ p.topics, WFRoot q.2) ∧
    (p.interactions.map Prod.fst).Nodup

instance : DecidablePred WFSub := fun s =>
  inferInstanceAs (Decidable ((s.branches.map Prod.fst).Nodup))

instance : DecidablePred WFRoot := fun r =>
  inferInstanceAs (Decidable ((r.subtopics.map Prod.fst).Nodup ∧ ∀ p ∈ r.subtopics, WFSub p.2))

instance : DecidablePred WFProfile := fun p =>
  inferInstanceAs (Decidable ((p.topics.map Prod.fst).Nodup ∧
    (∀ q ∈ p.topics, WFRoot q.2) ∧ (p.interactions.map Prod.fst).Nodup))

theorem mergeBranch_self (b : TopicBranch) : mergeBranch b b = b := by
  cases b
  rw [mergeBranch, max_self]

theorem mergeSub_self {s : SubTopic} (h : WFSub s) : mergeSub s s = s := by
  cases s
  rw [mergeSub, max_self, amerge_self mergeBranch _ h (fun p _ => mergeBranch_self p.2)]

theorem mergeRoot_self {r : RootTopic} (h : WFRoot r) : mergeRoot r r = r := by
  cases r
  rw [mergeRoot, max_self,
    amerge_self mergeSub _ h.1 (fun p hp => mergeSub_self (h.2 p hp))]

/-- Weight of a root topic, when present. -/
def topicWeightAt (topics : List (String × RootTopic)) (t : String) : Option ℚ :=
  (alookup t topics).map (fun n => n.weight)

/-- Weight of a subtopic, when present. -/
def subWeightAt (topics : List (String × RootTopic)) (t s : String) : Option ℚ :=
  (alookup t topics).bind (fun n => (alookup s n.subtopics).map (fun m => m.weight))

/-- Weight of a branch, when present. -/
def branchWeightAt (topics : List (String × RootTopic)) (t s b : String) : Option ℚ :=
  (alookup t topics).bind (fun n =>
    (alookup s n.subtopics).bind (fun m =>
      (alookup b m.branches).map (fun q => q.weight)))

theorem mergeTopics_topicWeight_comm (a b : List (String × RootTopic)) (t : String) :
    topicWeightAt (mergeTopics a b) t = topicWeightAt (mergeTopics b a) t := by
  rw [topicWeightAt, topicWeightAt, mergeTopics, mergeTopics,
    alookup_amerge_eq, alookup_amerge_eq]
  cases alookup t a <;> cases alookup t b <;>
    simp [mergeRoot, max_comm]

theorem mergeTopics_subWeight_comm (a b : List (String × RootTopic)) (t s : String) :
    subWeightAt (mergeTopics a b) t s = subWeightAt (mergeTopics b a) t s := by
  rw [subWeightAt, subWeightAt, mergeTopics, mergeTopics,
    alookup_amerge_eq, alookup_amerge_eq]
  cases alookup t a with
  | none => cases alookup t b <;> rfl
  | some x =>
    cases alookup t b with
    | none => rfl
    | some y =>
      simp only [Option.some_bind', mergeRoot, alookup_amerge_eq]
      cases alookup s x.subtopics <;> cases alookup s y.subtopics <;>
        simp [mergeSub, max_comm]

theorem mergeTopics_branchWeight_comm (a b : List (String × RootTopic)) (t s c : String) :
    branchWeightAt (mergeTopics a b) t s c = branchWeightAt (mergeTopics b a) t s c := by
  rw [branchWeightAt, branchWeightAt, mergeTopics, mergeTopics,
    alookup_amerge_eq, alookup_amerge_eq]
  cases alookup t a with
  | none => cases alookup t b <;> rfl
  | some x =>
    cases alookup t b with
    | none => rfl
    | some y =>
      simp only [Option.some_bind', mergeRoot, alookup_amerge_eq]
      cases alookup s x.subtopics with
      | none => cases alookup s y.subtopics <;> rfl
      | some m =>
        cases alookup s y.subtopics with
        | none => rfl
        | some n =>
          simp only [Option.some_bind', mergeSub, alookup_amerge_eq]
          cases alookup c m.branches <;> cases alookup c n.branches <;>
            simp [mergeBranch, max_comm]


/-! ## Weight model: `applyOutcome` (personalizationService.ts; delta
table and clamps excerpted in the architecture doc) -/

inductive AnswerOutcome where
  | correct : AnswerOutcome
  | incorrect : AnswerOutcome
  | skipped : AnswerOutcome
deriving DecidableEq

/-- The fixed delta table (topic, subtopic, branch), with the
compensation rows used when the item's recorded interaction was a skip
and the new outcome answers it. -/
def outcomeDeltas (o : AnswerOutcome) (compensating : Bool) : ℚ × ℚ × ℚ :=
  match o, compensating with
  | .correct, false => (0.1, 0.15, 0.2)
  | .incorrect, false => (0.05, 0.07, 0.1)
  | .skipped, _ => (-0.05, -0.07, -0.1)
  | .correct, true => (0.05, 0.07, 0.1)
  | .incorrect, true => (0.03, 0.04, 0.05)

/-- The read-clamp-write weight mutation: the doc's
`Math.min(1.0, w + d)` on the (positive-delta) answer paths and
`Math.max(0.1, w - d)` on the (negative-delta) skip path. -/
def applyDelta (w d : ℚ) : ℚ :=
  if 0 ≤ d then min 1 (w + d) else max 0.1 (w + d)

/-- Branch-node mutation of `applyOutcome`: clamp-adjust the weight,
stamp `lastViewed`. -/
def updateBranchNode (d now : ℚ) (q : TopicBranch) : TopicBranch :=
  { weight := applyDelta q.weight d, lastViewed := some now }

/-- Subtopic-node mutation of `applyOutcome`: clamp-adjust the weight,
lazily create and mutate the addressed branch, stamp `lastViewed`. -/
def updateSubNode (branch : String) (ds db now : ℚ) (m : SubTopic) : SubTopic :=
  { weight := applyDelta m.weight ds,
    branches := upsertWith branch (updateBranchNode db now)
      { weight := defaultWeight, lastViewed := none } m.branches,
    lastViewed := some now }

/-- Root-node mutation of `applyOutcome`. -/
def updateTopicNode (subtopic branch : String) (dt ds db now : ℚ) (n : RootTopic) :
    RootTopic :=
  { weight := applyDelta n.weight dt,
    subtopics := upsertWith subtopic (updateSubNode branch ds db now)
      { weight := defaultWeight, branches := [], lastViewed := none } n.subtopics,
    lastViewed := some now }

/-- The weight-tree update of `applyOutcome`: look up or lazily create
(at the default weight) the addressed root topic, subtopic and branch,
and apply the clamped deltas. -/
def updateTopicsTree (topics : List (String × RootTopic)) (item : TriviaItem)
    (d : ℚ × ℚ × ℚ) (now : ℚ) : List (String × RootTopic) :=
  upsertWith item.topic (updateTopicNode item.subtopic item.branch d.1 d.2.1 d.2.2 now)
    { weight := defaultWeight, subtopics := [], lastViewed := none } topics

/-- Modelled from the spec where `personalizationService.ts` is not in
the snapshot (the doc excerpts give the delta table, the clamp forms and
the lazy node creation at the default weight): `applyOutcome(profile,
item, outcome, timeSpentMs)` at clock time `now`. -/
def applyOutcome (p : UserProfile) (item : TriviaItem) (o : AnswerOutcome)
    (timeSpentMs now : ℚ) : UserProfile :=
  let prev := alookup item.id p.interactions
  let compensating :=
    match prev, o with
    | some i, .correct => i.wasSkipped
    | some i, .incorrect => i.wasSkipped
    | _, _ => false
  let newInteraction : QuestionInteraction :=
    { wasCorrect :=
        match o, prev with
        | .correct, _ => .val true
        | .incorrect, _ => .val false
        | .skipped, some i => i.wasCorrect
        | .skipped, none => .nullv,
      wasSkipped := (match o with | .skipped => true | _ => (prev.map (·.wasSkipped)).getD false),
      timeSpent := timeSpentMs,
      viewedAt := now }
  let newTotal := p.totalQuestionsAnswered + (match o with | .skipped => 0 | _ => 1)
  { topics := updateTopicsTree p.topics item (outcomeDeltas o compensating) now,
    interactions := upsertWith item.id (fun _ => newInteraction) newInteraction p.interactions,
    lastRefreshed := now,
    totalQuestionsAnswered := newTotal,
    coldStartComplete := p.coldStartComplete || decide (20 ≤ newTotal),
    version := p.version }

/-- All weights of a topic tree lie in the closed interval `[0.1, 1.0]`. -/
def TopicsInRange (topics : List (String × RootTopic)) : Prop :=
  ∀ tn ∈ topics, (0.1 ≤ tn.2.weight ∧ tn.2.weight ≤ 1) ∧
    ∀ sn ∈ tn.2.subtopics, (0.1 ≤ sn.2.weight ∧ sn.2.weight ≤ 1) ∧
      ∀ bn ∈ sn.2.branches, 0.1 ≤ bn.2.weight ∧ bn.2.weight ≤ 1

/-- All weights of the profile lie in `[0.1, 1.0]`. -/
def ProfileWeightsInRange (p : UserProfile) : Prop := TopicsInRange p.topics

instance : DecidablePred TopicsInRange := fun _ => by
  unfold TopicsInRange
  infer_instance

instance : DecidablePred ProfileWeightsInRange := fun p =>
  inferInstanceAs (Decidable (TopicsInRange p.topics))

theorem applyDelta_mem {w : ℚ} (d : ℚ) (h1 : 0.1 ≤ w) (h2 : w ≤ 1) :
    0.1 ≤ applyDelta w d ∧ applyDelta w d ≤ 1 := by
  rw [applyDelta]
  split <;> rename_i hd
  · constructor
    · apply le_min (by norm_num)
      linarith
    · exact min_le_left _ _
  · constructor
    · exact le_max_left _ _
    · apply max_le (by norm_num)
      linarith

theorem defaultWeight_mem : (0.1 : ℚ) ≤ defaultWeight ∧ defaultWeight ≤ 1 := by
  rw [defaultWeight_eq]
  norm_num

theorem upsertWith_forall {α : Type} {P : α → Prop} (k : String) (f : α → α) (dflt : α) :
    ∀ l : List (String × α), (∀ p ∈ l, P p.2) → (∀ v, P v → P (f v)) → P (f dflt) →
      ∀ p ∈ upsertWith k f dflt l, P p.2 := by
  intro l
  induction l with
  | nil =>
    intro _ _ hd p hp
    rw [upsertWith, List.mem_singleton] at hp
    subst hp
    exact hd
  | cons q t ih =>
    obtain ⟨kq, vq⟩ := q
    intro hl hf hd p hp
    rw [upsertWith] at hp
    split at hp
    · rw [List.mem_cons] at hp
      rcases hp with hp | hp
      · subst hp
        exact hf vq (hl _ (List.mem_cons_self _ _))
      · exact hl p (List.mem_cons_of_mem _ hp)
    · rw [List.mem_cons] at hp
      rcases hp with hp | hp
      · subst hp
        exact hl _ (List.mem_cons_self _ _)
      · exact ih (fun r hr => hl r (List.mem_cons_of_mem _ hr)) hf hd p hp

theorem updateBranchNode_range (d now : ℚ) {q : TopicBranch}
    (h : 0.1 ≤ q.weight ∧ q.weight ≤ 1) :
    0.1 ≤ (updateBranchNode d now q).weight ∧ (updateBranchNode d now q).weight ≤ 1 := by
  rw [updateBranchNode]
  exact applyDelta_mem d h.1 h.2

theorem updateSubNode_range (branch : String) (ds db now : ℚ) {m : SubTopic}
    (h : (0.1 ≤ m.weight ∧ m.weight ≤ 1) ∧
      ∀ bn ∈ m.branches, 0.1 ≤ bn.2.weight ∧ bn.2.weight ≤ 1) :
    (0.1 ≤ (updateSubNode branch ds db now m).weight ∧
        (updateSubNode branch ds db now m).weight ≤ 1) ∧
      ∀ bn ∈ (updateSubNode branch ds db now m).branches,
        0.1 ≤ bn.2.weight ∧ bn.2.weight ≤ 1 := by
  rw [updateSubNode]
  refine ⟨applyDelta_mem ds h.1.1 h.1.2, ?_⟩
  refine upsertWith_forall (P := fun q : TopicBranch => 0.1 ≤ q.weight ∧ q.weight ≤ 1)
    _ _ _ m.branches h.2 ?_ ?_
  · exact fun v hv => updateBranchNode_range db now hv
  · exact updateBranchNode_range db now defaultWeight_mem

theorem updateTopicNode_range (subtopic branch : String) (dt ds db now : ℚ) {n : RootTopic}
    (h : (0.1 ≤ n.weight ∧ n.weight ≤ 1) ∧
      ∀ sn ∈ n.subtopics, (0.1 ≤ sn.2.weight ∧ sn.2.weight ≤ 1) ∧
        ∀ bn ∈ sn.2.branches, 0.1 ≤ bn.2.weight ∧ bn.2.weight ≤ 1) :
    (0.1 ≤ (updateTopicNode subtopic branch dt ds db now n).weight ∧
        (updateTopicNode subtopic branch dt ds db now n).weight ≤ 1) ∧
      ∀ sn ∈ (updateTopicNode subtopic branch dt ds db now n).subtopics,
        (0.1 ≤ sn.2.weight ∧ sn.2.weight ≤ 1) ∧
          ∀ bn ∈ sn.2.branches, 0.1 ≤ bn.2.weight ∧ bn.2.weight ≤ 1 := by
  rw [updateTopicNode]
  refine ⟨applyDelta_mem dt h.1.1 h.1.2, ?_⟩
  refine upsertWith_forall (P := fun m : SubTopic =>
      (0.1 ≤ m.weight ∧ m.weight ≤ 1) ∧
        ∀ bn ∈ m.branches, 0.1 ≤ bn.2.weight ∧ bn.2.weight ≤ 1)
    _ _ _ n.subtopics h.2 ?_ ?_
  · exact fun v hv => updateSubNode_range branch ds db now hv
  · exact updateSubNode_range branch ds db now
      ⟨defaultWeight_mem, by intro bn hbn; cases hbn⟩

theorem updateTopicsTree_range (topics : List (String × RootTopic)) (item : TriviaItem)
    (d : ℚ × ℚ × ℚ) (now : ℚ) (h : TopicsInRange topics) :
    TopicsInRange (updateTopicsTree topics item d now) := by
  rw [TopicsInRange] at h
  rw [updateTopicsTree, TopicsInRange]
  refine upsertWith_forall (P := fun n : RootTopic =>
      (0.1 ≤ n.weight ∧ n.weight ≤ 1) ∧
        ∀ sn ∈ n.subtopics, (0.1 ≤ sn.2.weight ∧ sn.2.weight ≤ 1) ∧
          ∀ bn ∈ sn.2.branches, 0.1 ≤ bn.2.weight ∧ bn.2.weight ≤ 1)
    _ _ _ topics h ?_ ?_
  · exact fun v hv => updateTopicNode_range item.subtopic item.branch d.1 d.2.1 d.2.2 now hv
  · exact updateTopicNode_range item.subtopic item.branch d.1 d.2.1 d.2.2 now
      ⟨defaultWeight_mem, by intro sn hsn; cases hsn⟩

/-- The weight-range invariant is preserved by `applyOutcome`, whatever
the outcome, item, timing and starting state. -/
theorem applyOutcome_preserves_range (p : UserProfile) (item : TriviaItem)
    (o : AnswerOutcome) (timeSpentMs now : ℚ) (hp : ProfileWeightsInRange p) :
    ProfileWeightsInRange (applyOutcome p item o timeSpentMs now) := by
  rw [ProfileWeightsInRange] at hp ⊢
  have : (applyOutcome p item o timeSpentMs now).topics =
      updateTopicsTree p.topics item
        (outcomeDeltas o (match alookup item.id p.interactions, o with
          | some i, .correct => i.wasSkipped
          | some i, .incorrect => i.wasSkipped
          | _, _ => false)) now := rfl
  rw [this]
  exact updateTopicsTree_range _ _ _ _ hp

/-! ## Scoring engine: `calculateQuestionScore` (architecture doc,
lines 649–691) -/

/-- `calculateQuestionScore(question, userProfile)` evaluated at wall
clock `now` (the source reads `Date.now()` for the cooldown bonus).
Weight reads are `topics[t]?.weight || 0.5` and the analogous optional
chains, so a falsy (0) stored weight also falls back to `0.5`. -/
def calculateQuestionScore (question : TriviaItem) (userProfile : UserProfile)
    (now : ℚ) : ℚ :=
  let topicWeight :=
    match topicWeightAt userProfile.topics question.topic with
    | some w => if w = 0 then 0.5 else w
    | none => 0.5
  let subtopicWeight :=
    match subWeightAt userProfile.topics question.topic question.subtopic with
    | some w => if w = 0 then 0.5 else w
    | none => 0.5
  let branchWeight :=
    match branchWeightAt userProfile.topics question.topic question.subtopic
        question.branch with
    | some w => if w = 0 then 0.5 else w
    | none => 0.5
  let topicAffinity := (topicWeight + subtopicWeight + branchWeight) / 3
  let base := topicAffinity * 0.3
  match alookup question.id userProfile.interactions with
  | some interaction =>
    let accuracy :=
      if interaction.wasCorrect.isDefined then
        (if interaction.wasCorrect.truthy then (0.25 : ℚ) else -0.25)
      else 0
    let timeComponent :=
      if interaction.timeSpent < 3000 then (0.15 : ℚ)
      else if interaction.timeSpent > 15000 then -0.15
      else 0
    let skipComponent := if interaction.wasSkipped then (-0.2 : ℚ) else 0
    let daysSinceLastView := (now - interaction.viewedAt) / 86400000
    let cooldownBonus := min (daysSinceLastView * 0.1) 0.5
    base + accuracy + timeComponent + skipComponent + cooldownBonus
  | none => base + 0.15

/-- The claim's reading of the score formula, written from the spec's
words for comparison with `calculateQuestionScore`: the mean of the three
weights (each defaulting to `0.5` if unseen), accuracy `+0.25` / `−0.25`
only for boolean `wasCorrect` (0 when it is null or absent), the time
bonus, the skip penalty and the cooldown bonus, and `+0.15` novelty with
no interaction term for never-seen items. -/
def claimedQuestionScore (question : TriviaItem) (userProfile : UserProfile)
    (now : ℚ) : ℚ :=
  let topicAffinity :=
    ((topicWeightAt userProfile.topics question.topic).getD 0.5 +
      (subWeightAt userProfile.topics question.topic question.subtopic).getD 0.5 +
      (branchWeightAt userProfile.topics question.topic question.subtopic
          question.branch).getD 0.5) / 3
  match alookup question.id userProfile.interactions with
  | some interaction =>
    let accuracy : ℚ :=
      match interaction.wasCorrect with
      | .val true => 0.25
      | .val false => -0.25
      | _ => 0
    let timeBonus :=
      if interaction.timeSpent < 3000 then (0.15 : ℚ)
      else if interaction.timeSpent > 15000 then -0.15
      else 0
    let skipPenalty := if interaction.wasSkipped then (-0.2 : ℚ) else 0
    let daysSinceViewed := (now - interaction.viewedAt) / 86400000
    let cooldownBonus := min (0.1 * daysSinceViewed) 0.5
    0.3 * topicAffinity + accuracy + timeBonus + skipPenalty + cooldownBonus
  | none => 0.3 * topicAffinity + 0.15

/-! ## Cold-start controller (architecture doc, lines 584–607) -/

/-- The cold-start phase as a function of `totalAnswered`, with the
boundaries the eligibility filter tests: `< 5`, `< 12`, `< 20`, `≥ 20`. -/
def coldStartPhase (n : ℕ) : ℕ :=
  if n < 5 then 1 else if n < 12 then 2 else if n < 20 then 3 else 4

/-- `userProfile.topics[item.topic]?.weight < threshold`: topics missing
from the profile are not low-weight (`undefined < x` is false). -/
def isLowWeightTopic (p : UserProfile) (t : String) (threshold : ℚ) : Bool :=
  match alookup t p.topics with
  | some n => n.weight < threshold
  | none => false

/-- The cold-start eligibility filter: the doc's phase dispatch on
`totalQuestionsAnswered` inside `isColdStart`, with the steady-state
(phase 4) filter in the `else`.  Inside `isColdStart` the chain has no
final `else`, so `totalAnswered ≥ 20` with cold start still active
returns `undefined`, which the array filter treats as exclusion. -/
def coldStartEligible (p : UserProfile) (item : TriviaItem)
    (existingIds : List String) : Bool :=
  if !p.coldStartComplete then
    if p.totalQuestionsAnswered < 5 then
      !(existingIds.contains item.id) && item.difficultyOk
    else if p.totalQuestionsAnswered < 12 then
      !(existingIds.contains item.id) && !(isLowWeightTopic p item.topic 0.2) &&
        item.difficultyOk
    else if p.totalQuestionsAnswered < 20 then
      !(existingIds.contains item.id) && !(isLowWeightTopic p item.topic 0.3)
    else false
  else
    !(existingIds.contains item.id) && !(isLowWeightTopic p item.topic 0.2)

/-- Modelled from the spec: the mutation that completes cold start is in
`personalizationService.ts` (not in the snapshot); the spec's lifecycle
("terminal at `coldStartComplete = true`", first 20 answered items) makes
it the one-way transition `csc || totalAnswered ≥ 20`. -/
def updateColdStartComplete (csc : Bool) (totalAnswered : ℕ) : Bool :=
  csc || decide (20 ≤ totalAnswered)

/-! ## The two `getTopicColor` implementations
(src/design/index.ts and src/hooks/useDesignSystem.ts) -/

/-- The `topicColors` record of `src/design/index.ts`, in declaration
order. -/
def topicColors : List (String × String) :=
  [("Music", "#6200EA"), ("Entertainment", "#FF4081"), ("Science", "#00B8D4"),
   ("History", "#D500F9"), ("Pop Culture", "#FFD600"), ("Miscellaneous", "#FF9800"),
   ("Literature", "#D50000"), ("Technology", "#304FFE"), ("Arts", "#F50057"),
   ("Culture", "#9C27B0"), ("Politics", "#651FFF"), ("Geography", "#00C853"),
   ("Chemistry", "#00BCD4"), ("Countries", "#3F51B5"), ("Nature", "#64DD17"),
   ("Biology", "#00C853"), ("Physics", "#FFD600"), ("Environment", "#4CAF50"),
   ("Ancient History", "#9C27B0"), ("Language", "#2962FF"), ("Modern History", "#7E57C2"),
   ("Sports", "#FF6D00"), ("Art", "#F50057"), ("Astronomy", "#673AB7"),
   ("Engineering", "#FF5722"), ("Mathematics", "#00BFA5"), ("General Knowledge", "#00BFA5"),
   ("Food and Drink", "#FF3D00"), ("Computers", "#0288D1"), ("Math", "#00BFA5"),
   ("Food", "#FF3D00"), ("Modern Cinema", "#C51162"), ("Mythology", "#AA00FF"),
   ("Animals", "#76FF03"), ("Movies", "#673AB7"), ("default", "#455A64")]

/-- Is `needle` an initial run of `hay`? -/
def listStartsWith : List Char → List Char → Bool
  | [], _ => true
  | _ :: _, [] => false
  | x :: xs, y :: ys => x = y && listStartsWith xs ys

/-- Does `needle` occur contiguously inside `hay`? -/
def listOccurs (needle : List Char) : List Char → Bool
  | [] => listStartsWith needle []
  | y :: t => listStartsWith needle (y :: t) || listOccurs needle t

/-- `s.includes(sub)`. -/
def strIncludes (s sub : String) : Bool := listOccurs sub.data s.data

/-- The case-insensitive substring test both `getTopicColor` copies use
for a partial key match. -/
def topicColorPartialPred (category key : String) : Bool :=
  strIncludes (jsToLower category) (jsToLower key) ||
    strIncludes (jsToLower key) (jsToLower category)

namespace DesignIndex

/-- `getTopicColor` from `src/design/index.ts`: truthiness test of the
direct entry, then the case-insensitive partial key match, then
`topicColors.default`. -/
def getTopicColor (category : String) : String :=
  let direct :=
    match alookup category topicColors with
    | some v => if v = "" then none else some v
    | none => none
  match direct with
  | some v => v
  | none =>
    match (topicColors.map Prod.fst).find? (fun key => topicColorPartialPred category key) with
    | some key => (alookup key topicColors).getD ""
    | none => (alookup "default" topicColors).getD ""

end DesignIndex

namespace UseDesignSystem

/-- `getTopicColor` from `src/hooks/useDesignSystem.ts`.  The imported
`topicColors` is an object, so the `typeof` guard always takes the first
branch and the hard-coded fallback map is dead code; the live branch
tests `category in topicColors`, then the same partial match, then
`topicColors["default"] || "#455A64"`. -/
def getTopicColor (category : String) : String :=
  if (alookup category topicColors).isSome then
    (alookup category topicColors).getD ""
  else
    match (topicColors.map Prod.fst).find? (fun key => topicColorPartialPred category key) with
    | some key => (alookup key topicColors).getD ""
    | none =>
      match alookup "default" topicColors with
      | some v => if v = "" then "#455A64" else v
      | none => "#455A64"

end UseDesignSystem

/-! ## Duplicate detection: `checkQuestionExists` and its helpers
(openaiService.ts) -/

theorem length_dropWhileLe {α : Type} (p : α → Bool) (l : List α) :
    (l.dropWhile p).length ≤ l.length :=
  (List.dropWhile_suffix p).sublist.length_le

theorem doubleDropWhileLt {α : Type} (p q : α → Bool) (c : α) (l : List α) :
    ((l.dropWhile p).dropWhile q).length < (c :: l).length := by
  have h1 := length_dropWhileLe p l
  have h2 := length_dropWhileLe q (l.dropWhile p)
  simp only [List.length_cons]
  omega

theorem tailDropWhileLt {α : Type} (p : α → Bool) (c : α) (l : List α) :
    ((l.dropWhile p).tail).length < (c :: l).length := by
  have h1 := length_dropWhileLe p l
  have h2 := List.length_tail (l.dropWhile p)
  simp only [List.length_cons]
  omega

theorem dropTailDropWhileLt {α : Type} (p q : α → Bool) (l : List α)
    (h : (l.dropWhile p).isEmpty = false) :
    (((l.dropWhile p).tail).dropWhile q).length < l.length := by
  have h1 := length_dropWhileLe p l
  have h2 := length_dropWhileLe q (l.dropWhile p).tail
  have h3 : (l.dropWhile p).tail.length = (l.dropWhile p).length - 1 :=
    List.length_tail _
  have h4 : 0 < (l.dropWhile p).length := by
    cases hd : l.dropWhile p with
    | nil => rw [hd] at h; simp at h
    | cons x xs => simp
  omega

/-- `String.prototype.split(sep)` for a single-character separator:
segments between occurrences, empty segments included. -/
def splitOnSep (sep : Char) : List Char → List (List Char)
  | [] => [[]]
  | c :: t =>
    if c = sep then [] :: splitOnSep sep t
    else
      match splitOnSep sep t with
      | [] => [[c]]
      | h :: r => (c :: h) :: r

/-- `s.split(sep)` on strings. -/
def strSplitOn (s : String) (sep : Char) : List String :=
  (splitOnSep sep s.data).map String.mk

/-- `[...new Set(l)]`: deduplicate keeping first occurrences in order. -/
def jsDedupAux {α : Type} [DecidableEq α] (seen : List α) : List α → List α
  | [] => []
  | x :: xs => if x ∈ seen then jsDedupAux seen xs else x :: jsDedupAux (x :: seen) xs

/-- `[...new Set(l)]`. -/
def jsDedup {α : Type} [DecidableEq α] (l : List α) : List α := jsDedupAux [] l

/-- `String.prototype.trim`. -/
def jsTrim (s : String) : String := ⟨trimWs s.data⟩

/-- Levenshtein edit distance; the source fills the standard dynamic
programming matrix, whose entries satisfy exactly this recurrence. -/
def levDistance : List Char → List Char → ℕ
  | [], ys => ys.length
  | x :: xs, [] => (x :: xs).length
  | x :: xs, y :: ys =>
    if x = y then levDistance xs ys
    else 1 + min (levDistance xs ys)
      (min (levDistance (x :: xs) ys) (levDistance xs (y :: ys)))
termination_by xs ys => xs.length + ys.length
decreasing_by all_goals simp_arith

/-- `calculateLevenshteinSimilarity(str1, str2)`: 0 on falsy input,
1 on (normalized) equality, else `1 - distance / maxLen`. -/
def calculateLevenshteinSimilarity (str1 str2 : String) : ℚ :=
  if str1 = "" || str2 = "" then 0
  else
    let a := jsTrim (jsToLower str1)
    let b := jsTrim (jsToLower str2)
    if a = b then 1
    else
      let maxLen : ℕ := max a.data.length b.data.length
      if maxLen = 0 then 1
      else 1 - (levDistance b.data a.data : ℚ) / (maxLen : ℚ)

/-- Maximal word-character runs of a text, each paired with the separator
run that follows it (the decomposition a word-boundary regex test
needs). -/
def wordTokens : List Char → List (List Char × List Char)
  | [] => []
  | c :: t =>
    if isWordChar c then
      (c :: t.takeWhile isWordChar,
        (t.dropWhile isWordChar).takeWhile (fun x => !isWordChar x)) ::
        wordTokens ((t.dropWhile isWordChar).dropWhile (fun x => !isWordChar x))
    else wordTokens t
termination_by l => l.length
decreasing_by
  all_goals first
    | exact doubleDropWhileLt _ _ _ _
    | simp_arith

/-- The test `/\b(w1|w2|…)\b/.test(text)` for word-only alternatives:
some maximal word run equals one of the words. -/
def regexWordTest (words : List String) (l : List Char) : Bool :=
  (wordTokens l).any (fun tok => words.any (fun w => w.data == tok.1))

/-- The test of a two-group pattern `/\b(…)\s+(…)\b/`: a word from the
first set, then a pure-whitespace separator, then a word from the second
set. -/
def regexWordPairTest (set1 set2 : List String) (l : List Char) : Bool :=
  let toks := wordTokens l
  (toks.zip toks.tail).any (fun pair =>
    set1.any (fun w => w.data == pair.1.1) && !pair.1.2.isEmpty &&
      pair.1.2.all isWsChar && set2.any (fun w => w.data == pair.2.1))

/-- `extractQuestionIntent(question)` (openaiService.ts): the ordered
chain of `includes` and word-boundary regex tests. -/
def extractQuestionIntent (question : String) : String :=
  if question = "" then "unknown"
  else
    let text := jsToLower question
    if (strIncludes text "year" || strIncludes text "date" || strIncludes text "when") &&
        regexWordTest ["occur", "happened", "established", "founded", "created", "built",
          "launched", "released", "started"] text.data then "temporal"
    else if (strIncludes text "where" || strIncludes text "location" ||
        strIncludes text "place") ||
        (strIncludes text "which" && (strIncludes text "country" || strIncludes text "city" ||
          strIncludes text "continent" || strIncludes text "region" ||
          strIncludes text "located")) then "spatial"
    else if strIncludes text "who" ||
        (strIncludes text "which" && (strIncludes text "person" ||
          strIncludes text "individual" || strIncludes text "actor" ||
          strIncludes text "actress" || strIncludes text "scientist" ||
          strIncludes text "artist")) then "person"
    else if (strIncludes text "how many" || strIncludes text "how much") ||
        (strIncludes text "number of" || strIncludes text "amount of" ||
          strIncludes text "percentage" || strIncludes text "proportion") then "quantitative"
    else if regexWordPairTest ["known", "famous", "recognized", "remembered", "celebrated"]
        ["for", "as"] text.data then "attribute"
    else if regexWordTest ["paint", "wrote", "directed", "composed", "created", "designed",
        "built", "constructed"] text.data then "creation"
    else if strIncludes text "what" then "definition"
    else if strIncludes text "which" then "selection"
    else if strIncludes text "why" then "causation"
    else if strIncludes text "how" then "process"
    else "unknown"

/-- `text.split(/\s+/)`: segments between whitespace runs, with an empty
leading (or trailing) segment when the text starts (or ends) with
whitespace. -/
def splitWsRuns (l : List Char) : List (List Char) :=
  let seg := l.takeWhile (fun c => !isWsChar c)
  let rest := l.dropWhile (fun c => !isWsChar c)
  if h : rest.isEmpty then [seg]
  else seg :: splitWsRuns ((rest.tail).dropWhile isWsChar)
termination_by l.length
decreasing_by
  simp only [Bool.not_eq_true] at h
  exact dropTailDropWhileLt _ isWsChar l h

/-- `word.match(/^[A-Z][a-z]+/)` is truthy: an uppercase letter followed
by at least one lowercase letter. -/
def jsCapitalizedTest (w : String) : Bool :=
  match w.data with
  | c0 :: c1 :: _ => (65 ≤ c0.toNat && c0.toNat ≤ 90) && (97 ≤ c1.toNat && c1.toNat ≤ 122)
  | _ => false

/-- `word.match(/[.!?]$/)` is truthy. -/
def endsSentencePunct (w : String) : Bool :=
  match w.data.getLast? with
  | some c => c.toNat = 46 || c.toNat = 33 || c.toNat = 63
  | none => false

/-- The common words skipped by the entity extractor (case-insensitive
whole-word match), lowercased. -/
def commonWordList : List String :=
  ["the", "a", "an", "in", "on", "of", "for", "and", "but", "or", "not", "is", "are",
   "was", "were", "be", "been", "being"]

/-- The capitalized-run accumulation loop of `extractNamedEntities`:
`prev` is the previous word (for the sentence-start test), `current` the
run of capitalized words being collected. -/
def entitiesLoop (prev : Option String) (current : List String) :
    List String → List String
  | [] =>
    if current.isEmpty then [] else [jsToLower (String.intercalate " " current)]
  | w :: rest =>
    let isFirstWord :=
      match prev with
      | none => true
      | some pw => endsSentencePunct pw
    let isCommonWord := commonWordList.contains (jsToLower w)
    if jsCapitalizedTest w && !isFirstWord && !isCommonWord then
      entitiesLoop (some w) (current ++ [w]) rest
    else if !current.isEmpty then
      jsToLower (String.intercalate " " current) :: entitiesLoop (some w) [] rest
    else
      entitiesLoop (some w) [] rest

/-- The closing quote matching an opening quote character (straight and
curly quotes), for the quoted-entity regex. -/
def closeQuoteFor (c : Char) : Option Char :=
  if c.toNat = 39 then some c
  else if c.toNat = 34 then some c
  else if c.toNat = 8216 then some (Char.ofNat 8217)
  else if c.toNat = 8220 then some (Char.ofNat 8221)
  else none

/-- The `exec` loop over the quoted-entity regex: at each opening quote,
a nonempty run of non-closing characters followed by the closing quote is
a match (kept when longer than 2, lowercased); scanning resumes after the
match, or at the next position when there is no match here. -/
def quotedEntities : List Char → List String
  | [] => []
  | c :: rest =>
    match closeQuoteFor c with
    | some close =>
      let rem := rest.dropWhile (fun x => x ≠ close)
      let run := rest.takeWhile (fun x => x ≠ close)
      if rem.isEmpty then quotedEntities rest
      else if run.isEmpty then quotedEntities rest
      else if 2 < run.length then jsToLower ⟨run⟩ :: quotedEntities rem.tail
      else quotedEntities rem.tail
    | none => quotedEntities rest
termination_by l => l.length
decreasing_by
  all_goals first
    | exact tailDropWhileLt _ _ _
    | simp_arith

/-- `extractNamedEntities(text)`: capitalized runs (skipping sentence
starts and common words) plus quoted phrases, lowercased and
deduplicated in first-occurrence order. -/
def extractNamedEntities (text : String) : List String :=
  if text = "" then []
  else
    let words := (splitWsRuns text.data).map String.mk
    jsDedup (entitiesLoop none [] words ++ quotedEntities text.data)

/-- `generateEnhancedFingerprint(question, tags = [])`:
`intent|entities…|normalizedQuestion|sortedTags`. -/
def generateEnhancedFingerprint (question : String) (tags : List String) : String :=
  extractQuestionIntent question ++ "|" ++
    String.intercalate "|" (extractNamedEntities question) ++ "|" ++
    normalizeQuestionText question ++ "|" ++
    jsToLower (String.intercalate "|" (sortStringsJs tags))

/-- `calculateFingerprintSimilarity(fp1, fp2)`: the weighted mix of text,
entity, intent and tag similarity over the first four `|`-separated
fields (`split('|', 4)`). -/
def calculateFingerprintSimilarity (fp1 fp2 : String) : ℚ :=
  if fp1 = "" || fp2 = "" then 0
  else
    let parts1 := (strSplitOn fp1 '|').take 4
    let parts2 := (strSplitOn fp2 '|').take 4
    let intent1 := parts1.getD 0 ""
    let intent2 := parts2.getD 0 ""
    let entities1 := parts1.getD 1 ""
    let entities2 := parts2.getD 1 ""
    let question1 := parts1.getD 2 ""
    let question2 := parts2.getD 2 ""
    let tags1 := parts1.getD 3 ""
    let tags2 := parts2.getD 3 ""
    let intentSimilarity : ℚ := if intent1 = intent2 then 1 else 0
    let entitySimilarity : ℚ :=
      if entities1 ≠ "" ∧ entities2 ≠ "" then
        let arr1 := strSplitOn entities1 '|'
        let arr2 := strSplitOn entities2 '|'
        ((arr1.filter (fun e => arr2.contains e)).length : ℚ) /
          (max arr1.length arr2.length : ℚ)
      else 0
    let textSimilarity : ℚ :=
      if question1 ≠ "" ∧ question2 ≠ "" then
        calculateLevenshteinSimilarity question1 question2
      else 0
    let tagSimilarity : ℚ :=
      if tags1 ≠ "" ∧ tags2 ≠ "" then
        let arr1 := strSplitOn tags1 '|'
        let arr2 := strSplitOn tags2 '|'
        ((arr1.filter (fun e => arr2.contains e)).length : ℚ) /
          (max arr1.length arr2.length : ℚ)
      else 0
    0.5 * textSimilarity + 0.3 * entitySimilarity + 0.1 * intentSimilarity +
      0.1 * tagSimilarity

/-- A row of the `trivia_questions` table as the duplicate checks read
it (`id, question_text, fingerprint`); nullable columns are `Option`. -/
structure StoredQuestion where
  id : String
  question_text : Option String
  fingerprint : Option String
deriving DecidableEq

/-- The remote store's responses to the three queries
`checkQuestionExists` and its helpers can issue: the fingerprint-equality
query, the whole-table read of the similarity check, and the
`limit 10` read of the fallback check.  `Except.error` is a query error
with its message. -/
structure QuestionStoreEnv where
  fingerprintQuery : Except String (List String)
  allQuestionsQuery : Except String (List StoredQuestion)
  fallbackQuery : Except String (List StoredQuestion)

/-- The per-stored-question body of the `checkQuestionSimilarity` loop:
skip falsy texts, compare deduplicated word sets (3 or fewer total
differences is a duplicate), else the enhanced-fingerprint semantic
similarity must exceed 0.75.  (The source wraps the semantic part in a
`try`/`catch` falling back to the word comparison; the embedded
computation cannot throw, so the handler is dead.) -/
def similarToStored (normalizedQuestion : String) (questionWords : List String)
    (q : StoredQuestion) : Bool :=
  let qt := q.question_text.getD ""
  if qt = "" then false
  else
    let storedNormalized :=
      match q.fingerprint with
      | some fp => if fp = "" then normalizeQuestionText qt else (strSplitOn fp '|').getD 0 ""
      | none => normalizeQuestionText qt
    let storedWords := jsDedup (strSplitOn storedNormalized ' ')
    let uniqueToNew := questionWords.filter (fun w => !storedWords.contains w)
    let uniqueToStored := storedWords.filter (fun w => !questionWords.contains w)
    if uniqueToNew.length + uniqueToStored.length ≤ 3 then true
    else
      calculateFingerprintSimilarity (generateEnhancedFingerprint normalizedQuestion [])
        (generateEnhancedFingerprint qt []) > 0.75

/-- `checkQuestionSimilarity(fingerprint)`: read every stored question
and return whether some row passes `similarToStored`; any query error
yields `false`. -/
def checkQuestionSimilarity (env : QuestionStoreEnv) (fingerprint : String) : Bool :=
  let normalizedQuestion := (strSplitOn fingerprint '|').getD 0 ""
  let questionWords := jsDedup (strSplitOn normalizedQuestion ' ')
  match env.allQuestionsQuery with
  | .error _ => false
  | .ok questions => questions.any (similarToStored normalizedQuestion questionWords)

/-- `fallbackQuestionCheck(fingerprint)`: compare the fingerprint's
question part against the re-normalized stored texts by equality or
substring containment; any query error yields `false`. -/
def fallbackQuestionCheck (env : QuestionStoreEnv) (fingerprint : String) : Bool :=
  let normalizedQuestion := (strSplitOn fingerprint '|').getD 0 ""
  match env.fallbackQuery with
  | .error _ => false
  | .ok data =>
    data.any (fun q =>
      let qt := q.question_text.getD ""
      if qt = "" then false
      else
        let storedNormalized := normalizeQuestionText qt
        storedNormalized = normalizedQuestion ||
          strIncludes storedNormalized normalizedQuestion ||
          strIncludes normalizedQuestion storedNormalized)

/-- The error-message marker the source tests with `includes` to detect
a missing `fingerprint` column. -/
def fingerprintColumnMissingMsg : String := "column \"fingerprint\" does not exist"

/-- `checkQuestionExists(fingerprint)`: fingerprint-equality query first
(falling back to the text comparison when the fingerprint column is
missing, and otherwise throwing into the function's own `catch`, which
returns `false`); an exact match returns `true`; else the similarity
check decides. -/
def checkQuestionExists (env : QuestionStoreEnv) (fingerprint : String) : Bool :=
  match env.fingerprintQuery with
  | .error msg =>
    if strIncludes msg fingerprintColumnMissingMsg then fallbackQuestionCheck env fingerprint
    else false
  | .ok rows =>
    if rows.length > 0 then true
    else checkQuestionSimilarity env fingerprint

/-! ## Concrete sample data used by witnesses and counterexamples -/

/-- A fresh profile with no topics and no interactions. -/
def emptyProfile (lr : ℚ) : UserProfile :=
  { topics := [], interactions := [], lastRefreshed := lr,
    totalQuestionsAnswered := 0, coldStartComplete := false, version := 0 }

/-- A profile with a single leafless topic of the given weight. -/
def singleTopicProfile (t : String) (w lr : ℚ) : UserProfile :=
  { topics := [(t, { weight := w, subtopics := [], lastViewed := none })],
    interactions := [], lastRefreshed := lr,
    totalQuestionsAnswered := 0, coldStartComplete := false, version := 0 }

/-- A profile holding one interaction for item id `"q1"`. -/
def oneInteractionProfile (i : QuestionInteraction) : UserProfile :=
  { topics := [], interactions := [("q1", i)], lastRefreshed := 0,
    totalQuestionsAnswered := 0, coldStartComplete := false, version := 0 }

/-- A sample feed item addressing `"q1"` / Science / Physics / Mechanics. -/
def itemQ1 : TriviaItem :=
  { id := "q1", topic := "Science", subtopic := "Physics", branch := "Mechanics",
    difficultyOk := true }

/-! ## Claim theorems -/

/-- C1: For every local profile and every fetched remote profile, the
initial load resolves by the three-way rule: a remote with strictly
greater `lastRefreshed` is adopted wholesale (no push); otherwise, if the
local profile has all-default weights and the remote has a non-default
weight, the remote is adopted (no push); otherwise the local profile is
kept and pushed; and with no remote profile the local is kept and
pushed. -/
theorem claim_C1_initial_load_rule (l r : UserProfile) :
    (r.lastRefreshed > l.lastRefreshed → initialLoadResolve l (some r) = (r, false)) ∧
    (¬ r.lastRefreshed > l.lastRefreshed → hasAllDefaultWeights l = true →
      hasAllDefaultWeights r = false → initialLoadResolve l (some r) = (r, false)) ∧
    (¬ r.lastRefreshed > l.lastRefreshed →
      ¬ (hasAllDefaultWeights l = true ∧ hasAllDefaultWeights r = false) →
      initialLoadResolve l (some r) = (l, true)) ∧
    initialLoadResolve l none = (l, true) := by
  refine ⟨?_, ?_, ?_, rfl⟩
  · intro h
    rw [initialLoadResolve, if_pos h]
  · intro h h1 h2
    rw [initialLoadResolve, if_neg h, if_pos (by rw [h1, h2]; rfl)]
  · intro h h2
    rw [initialLoadResolve, if_neg h, if_neg]
    intro hc
    rw [Bool.and_eq_true] at hc
    refine h2 ⟨hc.1, ?_⟩
    cases hd : hasAllDefaultWeights r
    · rfl
    · rw [hd] at hc
      exact absurd hc.2 (by decide)

theorem claim_C1_witness :
    initialLoadResolve (emptyProfile 0) (some (singleTopicProfile "Science" 1 1)) =
        (singleTopicProfile "Science" 1 1, false) ∧
      initialLoadResolve (emptyProfile 5) (some (singleTopicProfile "Science" 1 1)) =
        (singleTopicProfile "Science" 1 1, false) ∧
      initialLoadResolve (singleTopicProfile "Music" 1 5) (some (emptyProfile 1)) =
        (singleTopicProfile "Music" 1 5, true) :=
  ⟨(claim_C1_initial_load_rule (emptyProfile 0) (singleTopicProfile "Science" 1 1)).1
      (by decide),
   (claim_C1_initial_load_rule (emptyProfile 5) (singleTopicProfile "Science" 1 1)).2.1
      (by decide) (by decide) (by decide),
   (claim_C1_initial_load_rule (singleTopicProfile "Music" 1 5) (emptyProfile 1)).2.2.1
      (by decide) (by decide)⟩

/-- C6: After the initial load (including the `checkDefaultWeights`
effect triggered by `initialDataLoaded`, against an unchanged remote
store), the coordinator is in write-only mode iff the adopted profile has
a non-default topic weight; in particular it stays out of write-only mode
(reads stay enabled) while all topic weights are default, and the current
profile is exactly the one the three-way rule adopted. -/
theorem claim_C6_write_only_gating (l : UserProfile) (r : Option UserProfile) :
    ((sessionStart l r).writeOnly = true ↔
      hasAllDefaultWeights (sessionStart l r).profile = false) ∧
    (sessionStart l r).profile = (initialLoadResolve l r).1 := by
  cases r with
  | none =>
    cases hdl : hasAllDefaultWeights l <;>
      simp [sessionStart, loadInitialDataState, checkDefaultWeightsStep,
        initialLoadResolve, hdl]
  | some rp =>
    by_cases hlr : rp.lastRefreshed > l.lastRefreshed <;>
      cases hdl : hasAllDefaultWeights l <;>
      cases hdr : hasAllDefaultWeights rp <;>
      simp [sessionStart, loadInitialDataState, checkDefaultWeightsStep,
        initialLoadResolve, hlr, hdl, hdr]

/-- C3: Every application of `applyOutcome` — any outcome, any item, any
timing — preserves the invariant that all topic, subtopic and branch
weights lie in the closed interval `[0.1, 1.0]`. -/
theorem claim_C3_weight_range_invariant (p : UserProfile) (item : TriviaItem)
    (o : AnswerOutcome) (timeSpentMs now : ℚ) (hp : ProfileWeightsInRange p) :
    ProfileWeightsInRange (applyOutcome p item o timeSpentMs now) :=
  applyOutcome_preserves_range p item o timeSpentMs now hp

theorem claim_C3_witness :
    ProfileWeightsInRange (emptyProfile 0) ∧
      ProfileWeightsInRange (applyOutcome (emptyProfile 0) itemQ1 .correct 5000 1) :=
  ⟨by decide, claim_C3_weight_range_invariant (emptyProfile 0) itemQ1 .correct 5000 1
    (by decide)⟩

/-- Profile A of the merge counterexample: one interaction for `"q1"`
viewed at time 100. -/
def mergeSampleA : UserProfile :=
  oneInteractionProfile
    { wasCorrect := .val true, wasSkipped := false, timeSpent := 0, viewedAt := 100 }

/-- Profile B of the merge counterexample: a colliding interaction for
`"q1"` viewed later, at time 200. -/
def mergeSampleB : UserProfile :=
  oneInteractionProfile
    { wasCorrect := .val false, wasSkipped := true, timeSpent := 0, viewedAt := 200 }

/-- C2 counterexample: on a key collision the merge keeps the local
profile's interaction regardless of `viewedAt` — here merge(A, B) keeps
A's record viewed at 100 although B's was viewed later at 200 — so
merge(A, B) and merge(B, A) do not yield the same interaction set and
the later-`viewedAt` rule does not hold. -/
theorem claim_C2_counterexample :
    (mergeProfiles mergeSampleA mergeSampleB 0).interactions ≠
        (mergeProfiles mergeSampleB mergeSampleA 0).interactions ∧
      (alookup "q1" (mergeProfiles mergeSampleA mergeSampleB 0).interactions).map
          (fun i => i.viewedAt) = some 100 := by
  constructor
  · decide
  · decide

theorem topicWeightAt_of_mergeProfiles (A B : UserProfile) (now : ℚ) (t : String) :
    topicWeightAt (mergeProfiles A B now).topics t =
      topicWeightAt (mergeTopics A.topics B.topics) t := rfl

/-- C2 amended: the merge is idempotent on a well-formed profile (same
topic tree and interaction map), merge(A, B) and merge(B, A) agree on
every topic/subtopic/branch weight value (leaf-wise max), on
`totalAnswered` and on the interaction key set; but the interaction union
is left-biased: on a key collision the local profile's interaction is
kept regardless of `viewedAt`. -/
theorem claim_C2_merge_properties (A B : UserProfile) (now : ℚ) (hA : WFProfile A) :
    ((mergeProfiles A A now).topics = A.topics ∧
      (mergeProfiles A A now).interactions = A.interactions) ∧
    (∀ t, topicWeightAt (mergeProfiles A B now).topics t =
        topicWeightAt (mergeProfiles B A now).topics t) ∧
    (∀ t s, subWeightAt (mergeProfiles A B now).topics t s =
        subWeightAt (mergeProfiles B A now).topics t s) ∧
    (∀ t s c, branchWeightAt (mergeProfiles A B now).topics t s c =
        branchWeightAt (mergeProfiles B A now).topics t s c) ∧
    (mergeProfiles A B now).totalQuestionsAnswered =
      (mergeProfiles B A now).totalQuestionsAnswered ∧
    (∀ k, (alookup k (mergeProfiles A B now).interactions).isSome =
        (alookup k (mergeProfiles B A now).interactions).isSome) ∧
    (∀ k i, alookup k A.interactions = some i →
      alookup k (mergeProfiles A B now).interactions = some i) := by
  obtain ⟨hnd, hroots, hint⟩ := hA
  refine ⟨⟨?_, ?_⟩, ?_, ?_, ?_, ?_, ?_, ?_⟩
  · show mergeTopics A.topics A.topics = A.topics
    exact amerge_self mergeRoot A.topics hnd
      (fun p hp => mergeRoot_self (hroots p hp))
  · show amerge (fun _ w => w) A.interactions A.interactions = A.interactions
    exact amerge_self _ A.interactions hint (fun p _ => rfl)
  · exact fun t => mergeTopics_topicWeight_comm A.topics B.topics t
  · exact fun t s => mergeTopics_subWeight_comm A.topics B.topics t s
  · exact fun t s c => mergeTopics_branchWeight_comm A.topics B.topics t s c
  · exact Nat.max_comm _ _
  · intro k
    show (alookup k (amerge (fun _ w => w) B.interactions A.interactions)).isSome =
      (alookup k (amerge (fun _ w => w) A.interactions B.interactions)).isSome
    rw [alookup_amerge_eq, alookup_amerge_eq]
    cases alookup k A.interactions <;> cases alookup k B.interactions <;> rfl
  · intro k i h
    show alookup k (amerge (fun _ w => w) B.interactions A.interactions) = some i
    rw [alookup_amerge_eq, h]
    cases alookup k B.interactions <;> rfl

theorem claim_C2_merge_properties_witness :
    WFProfile mergeSampleA ∧
      (mergeProfiles mergeSampleA mergeSampleA 0).interactions =
        mergeSampleA.interactions :=
  ⟨by decide,
    (claim_C2_merge_properties mergeSampleA mergeSampleB 0 (by decide)).1.2⟩

theorem topicWeightAt_pos {p : UserProfile} {t : String} {w : ℚ}
    (hp : ProfileWeightsInRange p) (h : topicWeightAt p.topics t = some w) :
    w ≠ 0 := by
  rw [topicWeightAt] at h
  cases hl : alookup t p.topics with
  | none => rw [hl] at h; cases h
  | some n =>
    rw [hl, Option.map_some'] at h
    cases h
    have := (hp (t, n) (alookup_mem hl)).1.1
    intro hc
    rw [hc] at this
    norm_num at this

theorem subWeightAt_pos {p : UserProfile} {t s : String} {w : ℚ}
    (hp : ProfileWeightsInRange p) (h : subWeightAt p.topics t s = some w) :
    w ≠ 0 := by
  rw [subWeightAt] at h
  cases hl : alookup t p.topics with
  | none => rw [hl] at h; cases h
  | some n =>
    rw [hl, Option.some_bind'] at h
    cases hm : alookup s n.subtopics with
    | none => rw [hm] at h; cases h
    | some m =>
      rw [hm, Option.map_some'] at h
      cases h
      have := ((hp (t, n) (alookup_mem hl)).2 (s, m) (alookup_mem hm)).1.1
      intro hc
      rw [hc] at this
      norm_num at this

theorem branchWeightAt_pos {p : UserProfile} {t s c : String} {w : ℚ}
    (hp : ProfileWeightsInRange p) (h : branchWeightAt p.topics t s c = some w) :
    w ≠ 0 := by
  rw [branchWeightAt] at h
  cases hl : alookup t p.topics with
  | none => rw [hl] at h; cases h
  | some n =>
    rw [hl, Option.some_bind'] at h
    cases hm : alookup s n.subtopics with
    | none => rw [hm] at h; cases h
    | some m =>
      rw [hm, Option.some_bind'] at h
      cases hb : alookup c m.branches with
      | none => rw [hb] at h; cases h
      | some q =>
        rw [hb, Option.map_some'] at h
        cases h
        have := (((hp (t, n) (alookup_mem hl)).2 (s, m) (alookup_mem hm)).2
          (c, q) (alookup_mem hb)).1
        intro hc
        rw [hc] at this
        norm_num at this

/-- The profile of the C4 counterexample: `"q1"` was viewed but never
answered (`wasCorrect` is null). -/
def nullAnswerProfile : UserProfile :=
  oneInteractionProfile
    { wasCorrect := .nullv, wasSkipped := false, timeSpent := 5000, viewedAt := 0 }

/-- C4 counterexample: for an interaction whose `wasCorrect` is null
(viewed but unanswered), the code's `wasCorrect !== undefined` gate
applies the −0.25 incorrect-answer penalty, while the claim's formula
gives an accuracy term of 0 — so the claimed formula and
`calculateQuestionScore` disagree. -/
theorem claim_C4_counterexample :
    calculateQuestionScore itemQ1 nullAnswerProfile 0 ≠
      claimedQuestionScore itemQ1 nullAnswerProfile 0 := by
  simp only [calculateQuestionScore, claimedQuestionScore, nullAnswerProfile,
    oneInteractionProfile, itemQ1, topicWeightAt, subWeightAt, branchWeightAt,
    alookup, JsTri.isDefined, JsTri.truthy, if_pos, if_neg]
  norm_num [min_def]

/-- C4 amended: with all weights in the legal range, the score of an
item with an existing interaction is `0.30 ·` the mean of the three
weights (each defaulting to 0.5 when unseen) plus accuracy, time bonus,
skip penalty and cooldown bonus — where the accuracy term is `+0.25` for
`wasCorrect === true` and `−0.25` for `wasCorrect === false` **and also
for null** (the code treats any defined falsy value as an incorrect
answer; it is 0 only when the field is absent) — and the score of a
never-seen item is the affinity term plus the 0.15 novelty bonus. -/
theorem claim_C4_score_formula (q : TriviaItem) (p : UserProfile) (now : ℚ)
    (hp : ProfileWeightsInRange p) :
    calculateQuestionScore q p now =
      0.3 * (((topicWeightAt p.topics q.topic).getD 0.5 +
          (subWeightAt p.topics q.topic q.subtopic).getD 0.5 +
          (branchWeightAt p.topics q.topic q.subtopic q.branch).getD 0.5) / 3) +
        (match alookup q.id p.interactions with
         | some i =>
           (match i.wasCorrect with
            | .undef => 0
            | .nullv => -0.25
            | .val true => 0.25
            | .val false => (-0.25 : ℚ)) +
             (if i.timeSpent < 3000 then (0.15 : ℚ)
              else if i.timeSpent > 15000 then -0.15 else 0) +
             (if i.wasSkipped then (-0.2 : ℚ) else 0) +
             min ((now - i.viewedAt) / 86400000 * 0.1) 0.5
         | none => 0.15) := by
  simp only [calculateQuestionScore]
  have ht : (match topicWeightAt p.topics q.topic with
      | some w => if w = 0 then (0.5 : ℚ) else w
      | none => (0.5 : ℚ)) = (topicWeightAt p.topics q.topic).getD 0.5 := by
    cases h : topicWeightAt p.topics q.topic with
    | none => rfl
    | some w => simp [topicWeightAt_pos hp h]
  have hs : (match subWeightAt p.topics q.topic q.subtopic with
      | some w => if w = 0 then (0.5 : ℚ) else w
      | none => (0.5 : ℚ)) =
      (subWeightAt p.topics q.topic q.subtopic).getD 0.5 := by
    cases h : subWeightAt p.topics q.topic q.subtopic with
    | none => rfl
    | some w => simp [subWeightAt_pos hp h]
  have hb : (match branchWeightAt p.topics q.topic q.subtopic q.branch with
      | some w => if w = 0 then (0.5 : ℚ) else w
      | none => (0.5 : ℚ)) =
      (branchWeightAt p.topics q.topic q.subtopic q.branch).getD 0.5 := by
    cases h : branchWeightAt p.topics q.topic q.subtopic q.branch with
    | none => rfl
    | some w => simp [branchWeightAt_pos hp h]
  rw [ht, hs, hb]
  cases hi : alookup q.id p.interactions with
  | none => ring
  | some i =>
    cases hwc : i.wasCorrect with
    | undef =>
      simp only [hwc, JsTri.isDefined, JsTri.truthy, Bool.false_eq_true, if_false]
      ring
    | nullv =>
      simp only [hwc, JsTri.isDefined, JsTri.truthy, Bool.false_eq_true, if_false,
        if_true]
      ring
    | val b =>
      cases b <;>
        simp only [hwc, JsTri.isDefined, JsTri.truthy, Bool.false_eq_true, if_false,
          if_true] <;>
        ring

theorem claim_C4_score_formula_witness :
    ProfileWeightsInRange nullAnswerProfile ∧
      calculateQuestionScore itemQ1 nullAnswerProfile 0 =
        0.3 * (((topicWeightAt nullAnswerProfile.topics itemQ1.topic).getD 0.5 +
            (subWeightAt nullAnswerProfile.topics itemQ1.topic itemQ1.subtopic).getD 0.5 +
            (branchWeightAt nullAnswerProfile.topics itemQ1.topic itemQ1.subtopic
                itemQ1.branch).getD 0.5) / 3) +
          (match alookup itemQ1.id nullAnswerProfile.interactions with
           | some i =>
             (match i.wasCorrect with
              | .undef => 0
              | .nullv => -0.25
              | .val true => 0.25
              | .val false => (-0.25 : ℚ)) +
               (if i.timeSpent < 3000 then (0.15 : ℚ)
                else if i.timeSpent > 15000 then -0.15 else 0) +
               (if i.wasSkipped then (-0.2 : ℚ) else 0) +
               min ((0 - i.viewedAt) / 86400000 * 0.1) 0.5
           | none => 0.15) :=
  ⟨by decide, claim_C4_score_formula itemQ1 nullAnswerProfile 0 (by decide)⟩

/-- The profile of the C5 counterexample: one fully recorded interaction
for `"q1"` viewed at time 0. -/
def viewedProfile : UserProfile :=
  oneInteractionProfile
    { wasCorrect := .undef, wasSkipped := false, timeSpent := 5000, viewedAt := 0 }

/-- C5 counterexample: `calculateQuestionScore` reads the wall clock for
the cooldown bonus, so the identical (item, profile) pair scores
differently when evaluated at time 0 and one day later — the function is
not pure in (item, profile) alone. -/
theorem claim_C5_counterexample :
    calculateQuestionScore itemQ1 viewedProfile 0 ≠
      calculateQuestionScore itemQ1 viewedProfile 86400000 := by
  simp only [calculateQuestionScore, viewedProfile, oneInteractionProfile, itemQ1,
    topicWeightAt, subWeightAt, branchWeightAt, alookup, JsTri.isDefined,
    JsTri.truthy, if_pos, if_neg]
  norm_num [min_def]

/-- C5 amended: the score is a pure deterministic function of (item,
profile, evaluation time), and the evaluation time enters only through
the cooldown bonus: an item with no recorded interaction scores
identically at any two times, and for a recorded interaction the score
difference between two times is exactly the cooldown-bonus
difference. -/
theorem claim_C5_score_time_dependence (q : TriviaItem) (p : UserProfile) (t1 t2 : ℚ) :
    (alookup q.id p.interactions = none →
      calculateQuestionScore q p t1 = calculateQuestionScore q p t2) ∧
    (∀ i, alookup q.id p.interactions = some i →
      calculateQuestionScore q p t1 - calculateQuestionScore q p t2 =
        min ((t1 - i.viewedAt) / 86400000 * 0.1) 0.5 -
          min ((t2 - i.viewedAt) / 86400000 * 0.1) 0.5) := by
  constructor
  · intro h
    simp only [calculateQuestionScore, h]
  · intro i h
    simp only [calculateQuestionScore, h]
    ring

theorem claim_C5_witness :
    alookup itemQ1.id (emptyProfile 0).interactions = none ∧
      calculateQuestionScore itemQ1 (emptyProfile 0) 0 =
        calculateQuestionScore itemQ1 (emptyProfile 0) 86400000 :=
  ⟨rfl, (claim_C5_score_time_dependence itemQ1 (emptyProfile 0) 0 86400000).1 rfl⟩

/-- C7: the cold-start phase is a monotone non-decreasing function of
`totalAnswered` (boundaries at 5, 12 and 20, so no phase is ever
revisited as `totalAnswered` grows); the eligibility filter applies, per
phase, the difficulty filter (phase 1), the additional weight-< 0.2
exclusion (phase 2), the weight-< 0.3 exclusion without the difficulty
filter (phase 3) and the weight-< 0.2 exclusion in steady state; and
`coldStartComplete` never transitions from true back to false. -/
theorem claim_C7_cold_start_monotone :
    (∀ n m : ℕ, n ≤ m → coldStartPhase n ≤ coldStartPhase m) ∧
    (∀ (p : UserProfile) (item : TriviaItem) (ids : List String),
      p.coldStartComplete = false →
      (p.totalQuestionsAnswered < 5 →
        coldStartEligible p item ids = (!(ids.contains item.id) && item.difficultyOk)) ∧
      (5 ≤ p.totalQuestionsAnswered → p.totalQuestionsAnswered < 12 →
        coldStartEligible p item ids =
          (!(ids.contains item.id) && !(isLowWeightTopic p item.topic 0.2) &&
            item.difficultyOk)) ∧
      (12 ≤ p.totalQuestionsAnswered → p.totalQuestionsAnswered < 20 →
        coldStartEligible p item ids =
          (!(ids.contains item.id) && !(isLowWeightTopic p item.topic 0.3)))) ∧
    (∀ (p : UserProfile) (item : TriviaItem) (ids : List String),
      p.coldStartComplete = true →
      coldStartEligible p item ids =
        (!(ids.contains item.id) && !(isLowWeightTopic p item.topic 0.2))) ∧
    (∀ (csc : Bool) (n : ℕ), csc = true → updateColdStartComplete csc n = true) := by
  refine ⟨?_, ?_, ?_, ?_⟩
  · intro n m h
    rw [coldStartPhase, coldStartPhase]
    split_ifs <;> omega
  · intro p item ids hcsc
    refine ⟨?_, ?_, ?_⟩
    · intro h5
      rw [coldStartEligible, hcsc]
      simp only [Bool.not_false, if_true, if_pos h5]
    · intro h5 h12
      rw [coldStartEligible, hcsc]
      simp only [Bool.not_false, if_true, if_neg (by omega : ¬ p.totalQuestionsAnswered < 5),
        if_pos h12]
    · intro h12 h20
      rw [coldStartEligible, hcsc]
      simp only [Bool.not_false, if_true, if_neg (by omega : ¬ p.totalQuestionsAnswered < 5),
        if_neg (by omega : ¬ p.totalQuestionsAnswered < 12), if_pos h20]
  · intro p item ids hcsc
    rw [coldStartEligible, hcsc]
    simp
  · intro csc n h
    rw [updateColdStartComplete, h, Bool.true_or]

theorem claim_C7_witness :
    (3 : ℕ) ≤ 7 ∧ coldStartPhase 3 ≤ coldStartPhase 7 ∧
      ((emptyProfile 0).coldStartComplete = false ∧
        (emptyProfile 0).totalQuestionsAnswered < 5 ∧
        coldStartEligible (emptyProfile 0) itemQ1 [] =
          (!(([] : List String).contains itemQ1.id) && itemQ1.difficultyOk)) ∧
      updateColdStartComplete true 3 = true :=
  ⟨by decide, (claim_C7_cold_start_monotone).1 3 7 (by decide),
   ⟨rfl, by decide,
     ((claim_C7_cold_start_monotone).2.1 (emptyProfile 0) itemQ1 [] rfl).1 (by decide)⟩,
   (claim_C7_cold_start_monotone).2.2.2 true 3 rfl⟩

/-- C8: the fingerprint is a function of the normalized question text
and the sorted tag multiset only: permuting the tag list leaves it
unchanged, and so does changing the question text's letter case,
inserting or deleting punctuation (non-word, non-space characters), or
altering whitespace runs (captured respectively by equality after
character-wise lowercasing, after deleting the punctuation class, and
after collapsing whitespace runs). -/
theorem claim_C8_fingerprint_invariance :
    (∀ (q : String) (t1 t2 : List String), t1.Perm t2 →
      generateQuestionFingerprint q t1 = generateQuestionFingerprint q t2) ∧
    (∀ (a b : String) (tags : List String),
      a.data.map jsLowerChar = b.data.map jsLowerChar →
      generateQuestionFingerprint a tags = generateQuestionFingerprint b tags) ∧
    (∀ (a b : String) (tags : List String),
      a.data.filter keepChar = b.data.filter keepChar →
      generateQuestionFingerprint a tags = generateQuestionFingerprint b tags) ∧
    (∀ (a b : String) (tags : List String),
      collapseWs a.data = collapseWs b.data →
      generateQuestionFingerprint a tags = generateQuestionFingerprint b tags) := by
  have hfp : ∀ (a b : String) (tags : List String),
      normalizeQuestionData a.data = normalizeQuestionData b.data →
      generateQuestionFingerprint a tags = generateQuestionFingerprint b tags := by
    intro a b tags h
    rw [generateQuestionFingerprint, generateQuestionFingerprint,
      normalizeQuestionText, normalizeQuestionText, h]
  refine ⟨?_, ?_, ?_, ?_⟩
  · intro q t1 t2 hperm
    rw [generateQuestionFingerprint, generateQuestionFingerprint,
      sortStringsJs_perm hperm]
  · exact fun a b tags h => hfp a b tags (normalize_eq_of_lower_eq h)
  · exact fun a b tags h => hfp a b tags (normalize_eq_of_filter_eq h)
  · exact fun a b tags h => hfp a b tags (normalize_eq_of_collapse_eq h)

theorem claim_C8_witness :
    (["beta", "alpha"] : List String).Perm ["alpha", "beta"] ∧
      generateQuestionFingerprint "Who wrote Hamlet" ["beta", "alpha"] =
        generateQuestionFingerprint "Who wrote Hamlet" ["alpha", "beta"] ∧
      "Who WROTE Hamlet".data.map jsLowerChar = "who wrote hamlet".data.map jsLowerChar ∧
      generateQuestionFingerprint "Who WROTE Hamlet" ["x"] =
        generateQuestionFingerprint "who wrote hamlet" ["x"] ∧
      "Who wrote Hamlet?".data.filter keepChar =
        "Who wrote Hamlet".data.filter keepChar ∧
      generateQuestionFingerprint "Who wrote Hamlet?" ["x"] =
        generateQuestionFingerprint "Who wrote Hamlet" ["x"] ∧
      collapseWs "Who  wrote   Hamlet".data = collapseWs "Who wrote Hamlet".data ∧
      generateQuestionFingerprint "Who  wrote   Hamlet" ["x"] =
        generateQuestionFingerprint "Who wrote Hamlet" ["x"] :=
  ⟨by decide,
   claim_C8_fingerprint_invariance.1 "Who wrote Hamlet" _ _ (by decide),
   by decide,
   claim_C8_fingerprint_invariance.2.1 _ _ ["x"] (by decide),
   by decide,
   claim_C8_fingerprint_invariance.2.2.1 _ _ ["x"] (by decide),
   by decide,
   claim_C8_fingerprint_invariance.2.2.2 _ _ ["x"] (by decide)⟩

/-- C9: `checkQuestionExists` is total and never propagates a store
failure: a fingerprint-query error other than the missing-column one
yields `false`; the missing-column error is handled by delegating to the
text-comparison fallback; and a `true` result arises only from an exact
fingerprint match, a sufficiently similar stored question found by the
similarity check, or a fallback text match. -/
theorem claim_C9_error_handling (env : QuestionStoreEnv) (fp : String) :
    (∀ msg, env.fingerprintQuery = .error msg →
      strIncludes msg fingerprintColumnMissingMsg = false →
      checkQuestionExists env fp = false) ∧
    (∀ msg, env.fingerprintQuery = .error msg →
      strIncludes msg fingerprintColumnMissingMsg = true →
      checkQuestionExists env fp = fallbackQuestionCheck env fp) ∧
    (checkQuestionExists env fp = true →
      (∃ rows, env.fingerprintQuery = .ok rows ∧ 0 < rows.length) ∨
        checkQuestionSimilarity env fp = true ∨
        fallbackQuestionCheck env fp = true) ∧
    (checkQuestionSimilarity env fp = true →
      ∃ qs, env.allQuestionsQuery = .ok qs ∧ ∃ q ∈ qs,
        similarToStored ((strSplitOn fp '|').getD 0 "")
          (jsDedup (strSplitOn ((strSplitOn fp '|').getD 0 "") ' ')) q = true) := by
  refine ⟨?_, ?_, ?_, ?_⟩
  · intro msg hq hmsg
    rw [checkQuestionExists, hq]
    simp [hmsg]
  · intro msg hq hmsg
    rw [checkQuestionExists, hq]
    simp [hmsg]
  · intro htrue
    rw [checkQuestionExists] at htrue
    cases hq : env.fingerprintQuery with
    | error msg =>
      rw [hq] at htrue
      simp only at htrue
      split at htrue
      · right; right; exact htrue
      · cases htrue
    | ok rows =>
      rw [hq] at htrue
      simp only at htrue
      split at htrue
      · rename_i hlen
        left
        exact ⟨rows, rfl, by omega⟩
      · right; left; exact htrue
  · intro hsim
    rw [checkQuestionSimilarity] at hsim
    cases hq : env.allQuestionsQuery with
    | error msg => rw [hq] at hsim; cases hsim
    | ok qs =>
      rw [hq] at hsim
      simp only [List.any_eq_true] at hsim
      exact ⟨qs, rfl, hsim⟩

/-- The store environment of the C9 witness: the fingerprint query fails
with a generic error and the other queries return empty result sets. -/
def failingStoreEnv : QuestionStoreEnv :=
  { fingerprintQuery := .error "permission denied",
    allQuestionsQuery := .ok [], fallbackQuery := .ok [] }

theorem claim_C9_witness :
    failingStoreEnv.fingerprintQuery = .error "permission denied" ∧
      strIncludes "permission denied" fingerprintColumnMissingMsg = false ∧
      checkQuestionExists failingStoreEnv "who wrote hamlet|x" = false :=
  ⟨rfl, by decide,
    (claim_C9_error_handling failingStoreEnv "who wrote hamlet|x").1
      "permission denied" rfl (by decide)⟩

/-- C10: the design-module and design-system-hook implementations of
`getTopicColor` are extensionally equal: for every category string they
return the same color (direct key hit, then the same case-insensitive
substring partial match over the `topicColors` keys, then the
`"#455A64"` default). -/
theorem claim_C10_topic_color_equiv (category : String) :
    DesignIndex.getTopicColor category = UseDesignSystem.getTopicColor category := by
  rw [DesignIndex.getTopicColor, UseDesignSystem.getTopicColor]
  cases h : alookup category topicColors with
  | some v =>
    have hv : v ≠ "" := by
      have hall : ∀ p ∈ topicColors, p.2 ≠ "" := by decide
      exact hall (category, v) (alookup_mem h)
    simp [h, hv]
  | none =>
    simp only [h, Option.isSome_none, Bool.false_eq_true, if_false]
    cases hf : (topicColors.map Prod.fst).find?
        (fun key => topicColorPartialPred category key) with
    | some key => simp [hf]
    | none =>
      simp only [hf]
      decide
